import Mathlib

/-!
# gitlabcloner

A shallow embedding of the two programs of the repository,

* `src/gitlabcloner/main.go` (the simple variant, namespace `GitlabCloner`), and
* `src/main.go` (the subgroup variant, namespace `Subgroups`),

together with the properties of their behaviour.

In the programs proper Go strings are modelled as Lean strings, that is as sequences of Unicode
scalar values (well-formed UTF-8 text); Go `int` is modelled as `Int`.  A Go string can hold
bytes that are not UTF-8: `Go.Raw` has Go strings as sequences of bytes, with the routines of
`unicode/utf8`, `strings.TrimSpace` and the string encoder of `json.Marshal` on them, and the
proof that on well-formed text they agree with the routines on text.  A run of a program is
the list of the externally visible events it performs, in order.  Everything the programs obtain from
outside the repository (file system, standard input, network, child process, and the library
routines whose tables are not part of the repository) is a field of `Env`.

The library routines the properties depend on are written out: `strings.TrimSpace`,
`strings.ToLower`, `strings.Contains` and `fmt.Sprint` in `Go`, `json.Marshal` and
`json.Unmarshal` on a `Config` in `Go.JSON`.  `sort.Slice` is a field of `Env`; the theorems
assume of it what its documentation guarantees (`SortSliceSpec`), and `Go.Sort` has its
implementation since Go 1.19, which shows what it does to elements that compare equal.
-/

set_option autoImplicit false

/-! ## Go library routines used by the programs -/

namespace Go

/-- Code points for which `unicode.IsSpace` holds. -/
def isSpace (c : Char) : Bool :=
  let n := c.toNat
  (9 ≤ n && n ≤ 13) || n == 32 || n == 0x85 || n == 0xA0 || n == 0x1680 ||
  (0x2000 ≤ n && n ≤ 0x200A) || n == 0x2028 || n == 0x2029 || n == 0x202F ||
  n == 0x205F || n == 0x3000

/-- Result of `strings.TrimSpace`: leading and trailing white space removed. -/
def TrimSpace (s : String) : String :=
  String.mk ((s.data.dropWhile isSpace).reverse.dropWhile isSpace).reverse

/-- Lower-casing of one ASCII byte, as in the ASCII branch of `strings.ToLower`. -/
def asciiLower (c : Char) : Char :=
  if 65 ≤ c.toNat ∧ c.toNat ≤ 90 then Char.ofNat (c.toNat + 32) else c

/-- Result of `strings.ToLower`.  Text that is ASCII only is lower-cased byte by byte; any other
text is mapped rune by rune through `unicode.ToLower`, whose table is the argument
`unicodeToLower`. -/
def ToLower (unicodeToLower : Char → Char) (s : String) : String :=
  if s.data.all (fun c => decide (c.toNat < 128)) then String.mk (s.data.map asciiLower)
  else String.mk (s.data.map unicodeToLower)

/-- Whether the second list is an initial segment of the first (`strings.HasPrefix`). -/
def startsWith : List Char → List Char → Bool
  | _, [] => true
  | [], _ :: _ => false
  | c :: s, d :: p => c == d && startsWith s p

/-- Whether `substr` occurs at some position of `s`. -/
def containsChars : List Char → List Char → Bool
  | [], substr => startsWith [] substr
  | c :: s, substr => startsWith (c :: s) substr || containsChars s substr

/-- Result of `strings.Contains`: `substr` occurs within `s`. -/
def Contains (s substr : String) : Bool :=
  containsChars s.data substr.data

/-- Lexicographic comparison of two texts by code point. -/
def ltChars : List Char → List Char → Bool
  | _, [] => false
  | [], _ :: _ => true
  | a :: as, b :: bs =>
    if a.toNat < b.toNat then true
    else if b.toNat < a.toNat then false
    else ltChars as bs

/-- The comparison `a < b` of two Go strings: lexicographic by byte, which on well-formed UTF-8
is lexicographic by code point. -/
def stringLess (a b : String) : Bool := ltChars a.data b.data

/-- The decimal digit `d` as a character. -/
def digitChar (d : Nat) : Char := Char.ofNat (48 + d)

/-- The digit loop of `fmt` for base 10: digits are produced from the least significant one and
put in front of `buf`.  The first argument bounds the number of iterations. -/
def fmtDigits : Nat → Nat → List Char → List Char
  | 0, u, buf => digitChar u :: buf
  | fuel + 1, u, buf =>
    if 10 ≤ u then fmtDigits fuel (u / 10) (digitChar (u % 10) :: buf)
    else digitChar u :: buf

/-- Result of `fmt.Sprint` (and of `fmt.Sprintf("%d", _)`) on an `int`: the decimal form, with a
leading minus sign for a negative number. -/
def Sprint (v : Int) : String :=
  if v < 0 then String.mk (Char.ofNat 45 :: fmtDigits v.natAbs v.natAbs [])
  else String.mk (fmtDigits v.natAbs v.natAbs [])

end Go

/-- The three configuration fields (declared identically in both source files). -/
structure Config where
  GitLabURL : String
  GroupID : String
  AccessToken : String
deriving DecidableEq

/-! ## The `encoding/json` routines applied to `Config` -/

namespace Go.JSON

open Go

/-- A parsed JSON text. -/
inductive Value where
  | null
  | bool (b : Bool)
  | number (lit : List Char)
  | string (s : List Char)
  | array (elems : List Value)
  | object (members : List (List Char × Value))

/-- The four white space characters of JSON: space, tab, carriage return, line feed. -/
def isWS (c : Char) : Bool :=
  c.toNat == 32 || c.toNat == 9 || c.toNat == 13 || c.toNat == 10

/-- Drop leading JSON white space. -/
def skipWS (cs : List Char) : List Char := cs.dropWhile isWS

/-- Whether `c` is one of `0` .. `9`. -/
def isDigit (c : Char) : Bool := 48 ≤ c.toNat && c.toNat ≤ 57

/-- Value of a hexadecimal digit, in either letter case. -/
def hexVal (c : Char) : Option Nat :=
  let n := c.toNat
  if 48 ≤ n ∧ n ≤ 57 then some (n - 48)
  else if 97 ≤ n ∧ n ≤ 102 then some (n - 87)
  else if 65 ≤ n ∧ n ≤ 70 then some (n - 55)
  else none

/-- Value of four hexadecimal digits (`getu4` after the backslash and the `u`). -/
def hex4 (a b c d : Char) : Option Nat :=
  match hexVal a, hexVal b, hexVal c, hexVal d with
  | some x, some y, some z, some w => some (((x * 16 + y) * 16 + z) * 16 + w)
  | _, _, _, _ => none

/-- The character denoted by a one-letter escape, if the letter is one the scanner accepts. -/
def simpleEscape (e : Char) : Option Char :=
  let n := e.toNat
  if n = 34 ∨ n = 92 ∨ n = 47 then some e
  else if n = 98 then some (Char.ofNat 8)
  else if n = 102 then some (Char.ofNat 12)
  else if n = 110 then some (Char.ofNat 10)
  else if n = 114 then some (Char.ofNat 13)
  else if n = 116 then some (Char.ofNat 9)
  else none

/-- Put a decoded character in front of the decoded remainder of a string literal. -/
def consChar (c : Char) : Option (List Char × List Char) → Option (List Char × List Char)
  | none => none
  | some (s, rest) => some (c :: s, rest)

/-- Read a string literal whose opening quote has been consumed: the decoded text and the input
after the closing quote.  A `\u` escape that is a surrogate is combined with a following low
surrogate escape when the two form a valid pair and is otherwise replaced by U+FFFD.  The first
argument bounds the number of steps. -/
def unquote : Nat → List Char → Option (List Char × List Char)
  | 0, _ => none
  | _ + 1, [] => none
  | fuel + 1, c :: cs =>
    if c.toNat = 34 then some ([], cs)
    else if c.toNat = 92 then
      match cs with
      | [] => none
      | e :: rest =>
        if e.toNat = 117 then
          match rest with
          | a :: b :: c2 :: d :: rest2 =>
            match hex4 a b c2 d with
            | none => none
            | some rr =>
              if 0xD800 ≤ rr ∧ rr < 0xE000 then
                match rest2 with
                | b1 :: u1 :: a1 :: b2 :: c1 :: d1 :: rest3 =>
                  match (if b1.toNat = 92 ∧ u1.toNat = 117 then hex4 a1 b2 c1 d1 else none) with
                  | some rr1 =>
                    if rr < 0xDC00 ∧ 0xDC00 ≤ rr1 ∧ rr1 < 0xE000 then
                      consChar (Char.ofNat ((rr - 0xD800) * 1024 + (rr1 - 0xDC00) + 0x10000))
                        (unquote fuel rest3)
                    else consChar (Char.ofNat 0xFFFD) (unquote fuel rest2)
                  | none => consChar (Char.ofNat 0xFFFD) (unquote fuel rest2)
                | _ => consChar (Char.ofNat 0xFFFD) (unquote fuel rest2)
              else consChar (Char.ofNat rr) (unquote fuel rest2)
          | _ => none
        else
          match simpleEscape e with
          | none => none
          | some ch => consChar ch (unquote fuel rest)
    else if c.toNat < 32 then none
    else consChar c (unquote fuel cs)

/-- Read one or more digits. -/
def digits1 (cs : List Char) : Option (List Char) :=
  match cs with
  | [] => none
  | c :: _ => if isDigit c then some (cs.dropWhile isDigit) else none

/-- Read a number literal: an optional minus sign, an integer part without a superfluous leading
zero, an optional fraction and an optional exponent.  The result is the input after it. -/
def scanNumber (cs : List Char) : Option (List Char) :=
  let afterSign := match cs with
    | [] => cs
    | c :: rest => if c.toNat = 45 then rest else cs
  let afterInt : Option (List Char) := match afterSign with
    | [] => none
    | c :: rest => if c.toNat = 48 then some rest else if isDigit c then some (rest.dropWhile isDigit)
        else none
  match afterInt with
  | none => none
  | some r1 =>
    let afterFrac : Option (List Char) := match r1 with
      | [] => some r1
      | c :: rest => if c.toNat = 46 then digits1 rest else some r1
    match afterFrac with
    | none => none
    | some r2 =>
      match r2 with
      | [] => some r2
      | c :: rest =>
        if c.toNat = 101 ∨ c.toNat = 69 then
          match rest with
          | [] => none
          | s :: rest2 => if s.toNat = 43 ∨ s.toNat = 45 then digits1 rest2 else digits1 rest
        else some r2

/-- The deepest nesting of arrays and objects the scanner accepts. -/
def maxNestingDepth : Nat := 10000

mutual

/-- Read one JSON value at the head of the input (no leading white space); `depth` is the number
of enclosing arrays and objects.  The first argument bounds the number of steps. -/
def parseValue : Nat → Nat → List Char → Option (Value × List Char)
  | 0, _, _ => none
  | _ + 1, _, [] => none
  | fuel + 1, depth, c :: rest =>
    if c.toNat = 123 then
      if depth < maxNestingDepth then
        match skipWS rest with
        | [] => none
        | d :: rest2 =>
          if d.toNat = 125 then some (Value.object [], rest2)
          else
            match parseMembers fuel (depth + 1) (d :: rest2) with
            | none => none
            | some (ms, r) => some (Value.object ms, r)
      else none
    else if c.toNat = 91 then
      if depth < maxNestingDepth then
        match skipWS rest with
        | [] => none
        | d :: rest2 =>
          if d.toNat = 93 then some (Value.array [], rest2)
          else
            match parseElements fuel (depth + 1) (d :: rest2) with
            | none => none
            | some (vs, r) => some (Value.array vs, r)
      else none
    else if c.toNat = 34 then
      match unquote (rest.length + 1) rest with
      | none => none
      | some (s, r) => some (Value.string s, r)
    else if startsWith (c :: rest) "true".data then some (Value.bool true, rest.drop 3)
    else if startsWith (c :: rest) "false".data then some (Value.bool false, rest.drop 4)
    else if startsWith (c :: rest) "null".data then some (Value.null, rest.drop 3)
    else
      match scanNumber (c :: rest) with
      | none => none
      | some r => some (Value.number ((c :: rest).take ((c :: rest).length - r.length)), r)

/-- Read the members of an object up to and including the closing brace; the input starts at the
first key. -/
def parseMembers : Nat → Nat → List Char → Option (List (List Char × Value) × List Char)
  | 0, _, _ => none
  | _ + 1, _, [] => none
  | fuel + 1, depth, c :: rest =>
    if c.toNat = 34 then
      match unquote (rest.length + 1) rest with
      | none => none
      | some (key, r1) =>
        match skipWS r1 with
        | [] => none
        | colon :: r2 =>
          if colon.toNat = 58 then
            match parseValue fuel depth (skipWS r2) with
            | none => none
            | some (v, r3) =>
              match skipWS r3 with
              | [] => none
              | sep :: r4 =>
                if sep.toNat = 44 then
                  match parseMembers fuel depth (skipWS r4) with
                  | none => none
                  | some (ms, r5) => some ((key, v) :: ms, r5)
                else if sep.toNat = 125 then some ([(key, v)], r4)
                else none
          else none
    else none

/-- Read the elements of an array up to and including the closing bracket; the input starts at
the first element. -/
def parseElements : Nat → Nat → List Char → Option (List Value × List Char)
  | 0, _, _ => none
  | fuel + 1, depth, cs =>
    match parseValue fuel depth cs with
    | none => none
    | some (v, r1) =>
      match skipWS r1 with
      | [] => none
      | sep :: r2 =>
        if sep.toNat = 44 then
          match parseElements fuel depth (skipWS r2) with
          | none => none
          | some (vs, r3) => some (v :: vs, r3)
        else if sep.toNat = 93 then some ([v], r2)
        else none

end

/-- The validity check and parse of a whole text: exactly one value, with white space allowed
before and after it. -/
def parse (data : List Char) : Option Value :=
  match parseValue (data.length + 1) 0 (skipWS data) with
  | none => none
  | some (v, rest) => if (skipWS rest).isEmpty then some v else none

/-- The fold of one rune of an object key used for the case-insensitive match of field names.
Of the runes outside ASCII only U+017F and U+212A fold to an ASCII letter; every other one is
left as it is here, which decides the match with an ASCII field name the same way. -/
def foldRune (c : Char) : Char :=
  if 97 ≤ c.toNat ∧ c.toNat ≤ 122 then Char.ofNat (c.toNat - 32)
  else if c.toNat = 0x17F then Char.ofNat 83
  else if c.toNat = 0x212A then Char.ofNat 75
  else c

/-- The fields of `Config`. -/
inductive Field where
  | GitLabURL
  | GroupID
  | AccessToken
deriving DecidableEq

/-- The JSON names of the fields, from the struct tags, in declaration order. -/
def fieldNames : List (List Char × Field) :=
  [("gitlab_url".data, Field.GitLabURL), ("group_id".data, Field.GroupID),
   ("access_token".data, Field.AccessToken)]

/-- The field an object key denotes: an exact match of the name is taken first, otherwise a
case-insensitive one. -/
def findField (key : List Char) : Option Field :=
  match fieldNames.find? (fun nf => nf.1 == key) with
  | some nf => some nf.2
  | none =>
    match fieldNames.find? (fun nf => nf.1.map foldRune == key.map foldRune) with
    | some nf => some nf.2
    | none => none

/-- Store a string into a field. -/
def setField (config : Config) (f : Field) (s : String) : Config :=
  match f with
  | Field.GitLabURL => { config with GitLabURL := s }
  | Field.GroupID => { config with GroupID := s }
  | Field.AccessToken => { config with AccessToken := s }

/-- Decode one object member into the configuration; the flag records a type mismatch.  A key
that denotes no field is skipped, `null` leaves the field as it is, and any value other than a
string for a field is a type mismatch. -/
def storeMember (acc : Config × Bool) (m : List Char × Value) : Config × Bool :=
  match findField m.1 with
  | none => acc
  | some f =>
    match m.2 with
    | Value.string s => (setField acc.1 f (String.mk s), acc.2)
    | Value.null => acc
    | _ => (acc.1, true)

/-- Result of `json.Unmarshal(data, &config)`: an error (the texts are abbreviated), or the
updated configuration. -/
def unmarshalConfig (data : String) (config : Config) : Except String Config :=
  match parse data.data with
  | none => Except.error "invalid JSON input"
  | some (Value.object members) =>
    let r := members.foldl storeMember (config, false)
    if r.2 then Except.error "json: cannot unmarshal value into Go struct field of type string"
    else Except.ok r.1
  | some Value.null => Except.ok config
  | some _ => Except.error "json: cannot unmarshal value into Go value of type main.Config"

/-- The lower-case hexadecimal digit `d`, as the encoder writes it. -/
def hexDigit (d : Nat) : Char :=
  if d < 10 then Char.ofNat (48 + d) else Char.ofNat (87 + d)

/-- The encoding of one character inside a string literal (HTML escaping on, as `json.Marshal`
has it): quote and backslash get a backslash, the control characters a short or a `\u00XX`
escape (backspace and form feed the short one, as since Go 1.22), `<`, `>` and `&` a `\u00XX`
escape, U+2028 and U+2029 a `\u202X` escape; every other character stands for itself. -/
def escapeChar (c : Char) : List Char :=
  let n := c.toNat
  if n = 34 ∨ n = 92 then [Char.ofNat 92, c]
  else if n = 8 then [Char.ofNat 92, Char.ofNat 98]
  else if n = 12 then [Char.ofNat 92, Char.ofNat 102]
  else if n = 10 then [Char.ofNat 92, Char.ofNat 110]
  else if n = 13 then [Char.ofNat 92, Char.ofNat 114]
  else if n = 9 then [Char.ofNat 92, Char.ofNat 116]
  else if n < 32 ∨ n = 60 ∨ n = 62 ∨ n = 38 then
    [Char.ofNat 92, Char.ofNat 117, Char.ofNat 48, Char.ofNat 48, hexDigit (n / 16),
     hexDigit (n % 16)]
  else if n = 0x2028 ∨ n = 0x2029 then
    [Char.ofNat 92, Char.ofNat 117, Char.ofNat 50, Char.ofNat 48, Char.ofNat 50,
     hexDigit (n % 16)]
  else [c]

/-- The string literal that encodes `s`. -/
def quote (s : String) : List Char :=
  Char.ofNat 34 :: (s.data.flatMap escapeChar ++ [Char.ofNat 34])

/-- The text `json.Marshal(config)` produces: an object with the three fields in declaration
order, without white space.  The three strings are well-formed text here, so the branch of the
encoder that replaces a byte that is not UTF-8 by the escape of U+FFFD is never taken; on
arbitrary bytes the encoder is `Go.Raw.encodeConfig`, which has that branch. -/
def encodeConfig (config : Config) : String :=
  String.mk ("\x7b\"gitlab_url\":".data ++ quote config.GitLabURL ++
    ",\"group_id\":".data ++ quote config.GroupID ++
    ",\"access_token\":".data ++ quote config.AccessToken ++ "\x7d".data)

/-- Result of `json.Marshal(config)`.  The call cannot fail for this type. -/
def marshalConfig (config : Config) : Except String String :=
  Except.ok (encodeConfig config)

end Go.JSON

/-! ## Go strings as bytes -/

namespace Go.Raw

/-- A Go string as the sequence of its bytes, each a number below 256. -/
abbrev Bytes := List Nat

/-- The constant `utf8.RuneError`, U+FFFD. -/
def RuneError : Nat := 0xFFFD

/-- The function `utf8.EncodeRune`: the bytes of the rune `r`; a surrogate or a number beyond
U+10FFFF is written as U+FFFD. -/
def EncodeRune (r : Nat) : Bytes :=
  if r < 0x80 then [r]
  else if r < 0x800 then [0xC0 + r / 64, 0x80 + r % 64]
  else if 0x10FFFF < r ∨ (0xD800 ≤ r ∧ r ≤ 0xDFFF) then [0xEF, 0xBF, 0xBD]
  else if r < 0x10000 then [0xE0 + r / 4096, 0x80 + r / 64 % 64, 0x80 + r % 64]
  else [0xF0 + r / 262144, 0x80 + r / 4096 % 64, 0x80 + r / 64 % 64, 0x80 + r % 64]

/-- The bytes of a well-formed text. -/
def utf8 (s : String) : Bytes := s.data.flatMap (fun c => EncodeRune c.toNat)

/-- The function `utf8.DecodeRuneInString`: the first rune of `s` and its width in bytes; a byte
that starts no well-formed encoding gives `RuneError` and width 1. -/
def DecodeRune (s : Bytes) : Nat × Nat :=
  match s with
  | [] => (RuneError, 0)
  | s0 :: rest =>
    if s0 < 0x80 then (s0, 1)
    else if s0 < 0xC2 ∨ 0xF4 < s0 then (RuneError, 1)
    else
      let sz := if s0 < 0xE0 then 2 else if s0 < 0xF0 then 3 else 4
      let lo := if s0 = 0xE0 then 0xA0 else if s0 = 0xF0 then 0x90 else 0x80
      let hi := if s0 = 0xED then 0x9F else if s0 = 0xF4 then 0x8F else 0xBF
      if rest.length + 1 < sz then (RuneError, 1)
      else
        match rest with
        | [] => (RuneError, 1)
        | s1 :: rest1 =>
          if s1 < lo ∨ hi < s1 then (RuneError, 1)
          else if sz ≤ 2 then (s0 % 32 * 64 + s1 % 64, 2)
          else
            match rest1 with
            | [] => (RuneError, 1)
            | s2 :: rest2 =>
              if s2 < 0x80 ∨ 0xBF < s2 then (RuneError, 1)
              else if sz ≤ 3 then (s0 % 16 * 4096 + s1 % 64 * 64 + s2 % 64, 3)
              else
                match rest2 with
                | [] => (RuneError, 1)
                | s3 :: _ =>
                  if s3 < 0x80 ∨ 0xBF < s3 then (RuneError, 1)
                  else (s0 % 8 * 262144 + s1 % 64 * 4096 + s2 % 64 * 64 + s3 % 64, 4)

/-- The function `utf8.RuneStart`: the byte is not a continuation byte. -/
def RuneStart (b : Nat) : Bool := !(0x80 ≤ b && b < 0xC0)

/-- The backward scan of `utf8.DecodeLastRuneInString`: from index `start` down to `lim`, the
first index whose byte starts a rune, or the index below `lim` (below 0: 0). -/
def lastRuneStart (s : Bytes) (lim : Nat) : Nat → Nat
  | 0 => 0
  | start + 1 =>
    if start + 1 < lim then start + 1
    else if RuneStart (s.getD (start + 1) 0) then start + 1
    else if start + 1 = lim then start
    else lastRuneStart s lim start

/-- The function `utf8.DecodeLastRuneInString`: the last rune of `s` and its width. -/
def DecodeLastRune (s : Bytes) : Nat × Nat :=
  let end_ := s.length
  if end_ = 0 then (RuneError, 0)
  else
    let r := s.getD (end_ - 1) 0
    if r < 0x80 then (r, 1)
    else
      let lim := end_ - 4
      let start := if end_ - 1 = 0 then 0 else lastRuneStart s lim (end_ - 2)
      let d := DecodeRune (s.drop start)
      if start + d.2 ≠ end_ then (RuneError, 1) else d

/-- The predicate `unicode.IsSpace` on a rune. -/
def IsSpace (n : Nat) : Bool :=
  (9 ≤ n && n ≤ 13) || n == 32 || n == 0x85 || n == 0xA0 || n == 0x1680 ||
  (0x2000 ≤ n && n ≤ 0x200A) || n == 0x2028 || n == 0x2029 || n == 0x202F ||
  n == 0x205F || n == 0x3000

/-- The call `strings.TrimLeftFunc(s, unicode.IsSpace)`; the first argument bounds the number
of runes. -/
def trimLeftSpace : Nat → Bytes → Bytes
  | 0, s => s
  | _ + 1, [] => []
  | fuel + 1, b :: rest =>
    if IsSpace (DecodeRune (b :: rest)).1 then
      trimLeftSpace fuel ((b :: rest).drop (DecodeRune (b :: rest)).2)
    else b :: rest

/-- The call `lastIndexFunc(s, unicode.IsSpace, false)` from index `i`: the index of the last
rune of `s[0:i]` that is no space, if there is one. -/
def lastIndexNotSpace (s : Bytes) : Nat → Nat → Option Nat
  | 0, _ => none
  | fuel + 1, i =>
    if i = 0 then none
    else
      let d := DecodeLastRune (s.take i)
      if !IsSpace d.1 then some (i - d.2) else lastIndexNotSpace s fuel (i - d.2)

/-- The call `strings.TrimRightFunc(s, unicode.IsSpace)`. -/
def trimRightSpace (s : Bytes) : Bytes :=
  match lastIndexNotSpace s (s.length + 1) s.length with
  | none => []
  | some i =>
    if 0x80 ≤ s.getD i 0 then s.take (i + (DecodeRune (s.drop i)).2) else s.take (i + 1)

/-- The six ASCII bytes of the table `asciiSpace`. -/
def asciiSpace (c : Nat) : Bool :=
  c == 9 || c == 10 || c == 11 || c == 12 || c == 13 || c == 32

/-- The second loop of `strings.TrimSpace`, on the reversed remainder: ASCII space is dropped
from the end; at a byte outside ASCII the rest is left to `TrimRightFunc`. -/
def trimSpaceEnd : Bytes → Bytes
  | [] => []
  | c :: rest =>
    if 0x80 ≤ c then trimRightSpace (c :: rest).reverse
    else if asciiSpace c then trimSpaceEnd rest
    else (c :: rest).reverse

/-- The function `strings.TrimSpace` on bytes: ASCII space is dropped from the start; at a byte
outside ASCII the rest is left to `TrimFunc`. -/
def TrimSpace : Bytes → Bytes
  | [] => []
  | c :: rest =>
    if 0x80 ≤ c then trimRightSpace (trimLeftSpace (rest.length + 1) (c :: rest))
    else if asciiSpace c then TrimSpace rest
    else trimSpaceEnd (c :: rest).reverse

/-- The loop of `appendString` in `encoding/json`: an ASCII byte and a well-formed rune are
encoded as the character they are, and a byte that starts no well-formed encoding is written
as the escape of U+FFFD.  The result is well-formed, so it is given as text.  The first
argument bounds the number of runes. -/
def appendStringLoop : Nat → Bytes → List Char
  | 0, _ => []
  | _ + 1, [] => []
  | fuel + 1, b :: rest =>
    if b < 0x80 then Go.JSON.escapeChar (Char.ofNat b) ++ appendStringLoop fuel rest
    else if (DecodeRune (b :: rest)).1 = RuneError ∧ (DecodeRune (b :: rest)).2 = 1 then
      [Char.ofNat 92, Char.ofNat 117, Char.ofNat 102, Char.ofNat 102, Char.ofNat 102,
       Char.ofNat 100] ++ appendStringLoop fuel rest
    else
      Go.JSON.escapeChar (Char.ofNat (DecodeRune (b :: rest)).1) ++
        appendStringLoop fuel ((b :: rest).drop (DecodeRune (b :: rest)).2)

/-- The string literal `appendString` writes for the bytes `s`. -/
def quote (s : Bytes) : List Char :=
  Char.ofNat 34 :: (appendStringLoop (s.length + 1) s ++ [Char.ofNat 34])

/-- The type `Config` with its three Go strings as bytes. -/
structure ConfigBytes where
  GitLabURL : Bytes
  GroupID : Bytes
  AccessToken : Bytes
deriving DecidableEq

/-- The text `json.Marshal(config)` produces when the three strings are arbitrary bytes. -/
def encodeConfig (config : ConfigBytes) : String :=
  String.mk ("\x7b\"gitlab_url\":".data ++ quote config.GitLabURL ++
    ",\"group_id\":".data ++ quote config.GroupID ++
    ",\"access_token\":".data ++ quote config.AccessToken ++ "\x7d".data)

/-- The bytes of a configuration whose three strings are well-formed text. -/
def ofConfig (config : Config) : ConfigBytes :=
  ⟨utf8 config.GitLabURL, utf8 config.GroupID, utf8 config.AccessToken⟩

/-- The configuration `main` collects from the three results of `ReadString` (the assignments
after the three prompts), on bytes. -/
def collect (gitlabURL groupID accessToken : Bytes) : ConfigBytes :=
  ⟨TrimSpace gitlabURL, TrimSpace groupID, TrimSpace accessToken⟩

end Go.Raw

/-! ## Events and environment -/

/-- One externally visible step of a run. -/
inductive Event where
  /-- Text written to standard output by `fmt.Print`, `fmt.Println` or `fmt.Printf`. -/
  | stdout (text : String)
  /-- One `reader.ReadString` call on standard input. -/
  | readLine
  /-- The call `ioutil.ReadFile(path)`. -/
  | readFile (path : String)
  /-- The call `ioutil.WriteFile(path, data, perm)`. -/
  | writeFile (path : String) (data : String) (perm : Nat)
  /-- The call `http.Get(url)`. -/
  | httpGet (url : String)
  /-- The call `exec.Command(name, args...).Run()`. -/
  | run (name : String) (args : List String)
  /-- The call `log.Fatal` with the printed message: the process exits with status 1. -/
  | fatal (msg : String)
deriving DecidableEq

/-- Everything a run obtains from outside the repository.  `P` is the project record type of the
variant. -/
structure Env (P : Type) where
  /-- Value of `os.Getenv("HOME")`. -/
  home : String
  /-- The function `path.Join` on two elements. -/
  pathJoin : String → String → String
  /-- Whether `os.IsNotExist(err)` holds for the error of `os.Stat(path)`. -/
  statNotExist : String → Bool
  /-- Outcome of `ioutil.ReadFile(path)`: an error text or the file content. -/
  readFile : String → Except String String
  /-- Outcome of `ioutil.WriteFile(path, data, perm)`. -/
  writeFile : String → String → Nat → Except String Unit
  /-- Results of the successive `ReadString` calls on standard input (a terminal delivers one
  line per call); once exhausted every call yields the empty string.  The lines are well-formed
  text; lines of arbitrary bytes are the arguments of `Go.Raw.collect`. -/
  stdin : List String
  /-- Outcome of `http.Get(url)`: a transport error, or the response, whose body either fails to
  be read or is read in full. -/
  httpGet : String → Except String (Except String String)
  /-- Outcome of JSON-decoding a response body into a slice of projects. -/
  unmarshalProjects : String → Except String (List P)
  /-- Outcome of running a child process to completion. -/
  run : String → List String → Except String Unit
  /-- The table of `unicode.ToLower`. -/
  unicodeToLower : Char → Char
  /-- The function `sort.Slice`, given the ordering on elements that the `less` closure computes
  and the slice content; the result is the content after the call. -/
  sortSlice : (P → P → Bool) → List P → List P
  /-- The function `color.YellowString` of `github.com/fatih/color`. -/
  yellowString : String → String

/-- The requirements `sort.Slice` places on `less`: a strict weak ordering. -/
structure StrictWeakOrder {α : Type} (less : α → α → Bool) : Prop where
  irrefl : ∀ a, less a a = false
  trans : ∀ a b c, less a b = true → less b c = true → less a c = true
  negTrans : ∀ a b c, less a b = false → less b c = false → less a c = false

/-- What `sort.Slice` guarantees: the slice is rearranged (nothing added or dropped) and, for a
strict weak ordering, no element is followed by a smaller one.  Stability is not part of it. -/
structure SortSliceSpec {α : Type} (sortSlice : (α → α → Bool) → List α → List α) : Prop where
  perm : ∀ less xs, (sortSlice less xs).Perm xs
  sorted : ∀ less xs, StrictWeakOrder less →
    (sortSlice less xs).Pairwise (fun a b => less b a = false)

/-! ## The simple variant: `src/gitlabcloner/main.go` -/

namespace GitlabCloner

/-- The type `Namespace` of `src/gitlabcloner/main.go`. -/
structure Namespace where
  NameWithNamespace : String
deriving DecidableEq

/-- The type `Project` of `src/gitlabcloner/main.go`. -/
structure Project where
  ID : Int
  Name : String
  Namespace : Namespace
  HTTPURLToRepo : String
deriving DecidableEq

/-- The zero value of `Project` (`var selectedProject Project`). -/
def Project.zero : Project := ⟨0, "", ⟨""⟩, ""⟩

/-- The `less` closure given to `sort.Slice`, as an ordering on projects. -/
def less (E : Env Project) (p q : Project) : Bool :=
  Go.stringLess (Go.ToLower E.unicodeToLower p.Name) (Go.ToLower E.unicodeToLower q.Name)

/-- The selection loop: the first project whose `fmt.Sprint(project.ID)` equals `projectID`
replaces `selectedProject` and ends the loop. -/
def selectLoop (projectID : String) : List Project → Project → Project
  | [], selectedProject => selectedProject
  | project :: rest, selectedProject =>
    if Go.Sprint project.ID = projectID then project
    else selectLoop projectID rest selectedProject

/-- The request URL built by `fmt.Sprintf`. -/
def fullURL (config : Config) : String :=
  config.GitLabURL ++ "api/v4/groups/" ++ config.GroupID ++ "/projects?private_token=" ++
    config.AccessToken

/-- The line printed for one project by `fmt.Println(project.Name, project.ID)`. -/
def listLine (project : Project) : Event :=
  Event.stdout (project.Name ++ " " ++ Go.Sprint project.ID ++ "\n")

/-- The clone step (lines 128-136): the two announcements, the child process `git clone` with
the clone URL of the selected project, and the report of its outcome. -/
def cloneStep (E : Env Project) (selectedProject : Project) : List Event :=
  let cloneURL := selectedProject.HTTPURLToRepo
  [Event.stdout "Cloning project...\n",
   Event.stdout ("Cloning " ++ selectedProject.Name ++ "\n"),
   Event.run "git" ["clone", cloneURL]] ++
  (match E.run "git" ["clone", cloneURL] with
   | .error err => [Event.fatal ("Error cloning project:" ++ err)]
   | .ok _ => [Event.stdout "Project cloned successfully.\n"])

/-- The part of `fetchProjects` after the response has been decoded (lines 100-139). -/
def listAndClone (E : Env Project) (decoded : List Project) : List Event :=
  let projects := E.sortSlice (less E) decoded
  let projectID := Go.TrimSpace (E.stdin.headD "")
  let selectedProject := selectLoop projectID projects Project.zero
  [Event.stdout "Available Projects:\n"] ++ projects.map listLine ++
  [Event.stdout "Enter the project ID to clone: ", Event.readLine] ++
  (if selectedProject.ID = 0 then [Event.fatal "Invalid project selected"]
   else if selectedProject.ID ≠ 0 then cloneStep E selectedProject
   else [Event.stdout "Invalid project ID.\n"])

/-- The function `fetchProjects` of `src/gitlabcloner/main.go`. -/
def fetchProjects (E : Env Project) (config : Config) : List Event :=
  Event.httpGet (fullURL config) ::
  (match E.httpGet (fullURL config) with
   | .error err => [Event.fatal ("Error fetching projects:" ++ err)]
   | .ok (.error err) => [Event.fatal ("Error reading response body:" ++ err)]
   | .ok (.ok body) =>
     match E.unmarshalProjects body with
     | .error err => [Event.fatal ("Error parsing JSON response:" ++ err)]
     | .ok decoded => listAndClone E decoded)

end GitlabCloner

/-! ## The subgroup variant: `src/main.go` -/

namespace Subgroups

/-- The type `Namespace` of `src/main.go`. -/
structure Namespace where
  FullPath : String
deriving DecidableEq

/-- The type `Project` of `src/main.go`. -/
structure Project where
  ID : Int
  Name : String
  Namespace : Namespace
  HTTPURLToRepo : String
  SubprojectsCount : Int
  NameWithNamespace : String
deriving DecidableEq

/-- The zero value of `Project` (`var selectedProject Project`). -/
def Project.zero : Project := ⟨0, "", ⟨""⟩, "", 0, ""⟩

/-- The `less` closure given to `sort.Slice`, as an ordering on projects. -/
def less (E : Env Project) (p q : Project) : Bool :=
  Go.stringLess (Go.ToLower E.unicodeToLower p.Name) (Go.ToLower E.unicodeToLower q.Name)

/-- The selection loop: the first project whose `fmt.Sprint(project.ID)` equals `projectID`
replaces `selectedProject` and ends the loop. -/
def selectLoop (projectID : String) : List Project → Project → Project
  | [], selectedProject => selectedProject
  | project :: rest, selectedProject =>
    if Go.Sprint project.ID = projectID then project
    else selectLoop projectID rest selectedProject

/-- The request URL built by `fmt.Sprintf`. -/
def fullURL (config : Config) : String :=
  config.GitLabURL ++ "api/v4/groups/" ++ config.GroupID ++
    "/projects?include_subgroups=true&private_token=" ++ config.AccessToken ++ "&per_page=100"

/-- The value of `projectType` computed in the print loop. -/
def projectType (E : Env Project) (project : Project) : String :=
  if Go.Contains (Go.ToLower E.unicodeToLower project.NameWithNamespace) "android" then "android"
  else if Go.Contains (Go.ToLower E.unicodeToLower project.NameWithNamespace) "ios" then "ios"
  else project.NameWithNamespace

/-- The line printed for one project by `fmt.Printf("%s %s %s\n", ...)`. -/
def listLine (E : Env Project) (project : Project) : Event :=
  Event.stdout (project.Name ++ " " ++ E.yellowString (Go.Sprint project.ID) ++ " " ++
    projectType E project ++ "\n")

/-- The clone step (lines 141-149): the two announcements, the child process `git clone` with
the clone URL of the selected project, and the report of its outcome. -/
def cloneStep (E : Env Project) (selectedProject : Project) : List Event :=
  let cloneURL := selectedProject.HTTPURLToRepo
  [Event.stdout "Cloning project...\n",
   Event.stdout ("Cloning " ++ selectedProject.Name ++ "\n"),
   Event.run "git" ["clone", cloneURL]] ++
  (match E.run "git" ["clone", cloneURL] with
   | .error err => [Event.fatal ("Error cloning project:" ++ err)]
   | .ok _ => [Event.stdout "Project cloned successfully.\n"])

/-- The part of `fetchProjects` after the response has been decoded (lines 105-149). -/
def listAndClone (E : Env Project) (decoded : List Project) : List Event :=
  let projects := E.sortSlice (less E) decoded
  let projectID := Go.TrimSpace (E.stdin.headD "")
  let selectedProject := selectLoop projectID projects Project.zero
  [Event.stdout "Available Projects:\n"] ++ projects.map (listLine E) ++
  [Event.stdout "Enter the project ID to clone: ", Event.readLine] ++
  (if selectedProject.ID = 0 then [Event.fatal "Invalid project selected"]
   else cloneStep E selectedProject)

/-- The function `fetchProjects` of `src/main.go`.  The body is decoded while it is read, so a
failure to read it surfaces as a decoding error. -/
def fetchProjects (E : Env Project) (config : Config) : List Event :=
  Event.httpGet (fullURL config) ::
  (match E.httpGet (fullURL config) with
   | .error err => [Event.fatal ("Error fetching projects:" ++ err)]
   | .ok (.error err) => [Event.fatal ("Error parsing JSON response:" ++ err)]
   | .ok (.ok body) =>
     match E.unmarshalProjects body with
     | .error err => [Event.fatal ("Error parsing JSON response:" ++ err)]
     | .ok decoded => listAndClone E decoded)

end Subgroups

/-! ## The function `main` (its text is the same in both source files) -/

/-- The function `fileExists`. -/
def fileExists {P : Type} (E : Env P) (filePath : String) : Bool :=
  !E.statNotExist filePath

/-- The function `main`, given the `fetchProjects` of the variant.  The reads of the three
prompts consume the first three results of standard input; `fetchProjects` runs on what
follows. -/
def mainWith {P : Type} (fetchProjects : Env P → Config → List Event) (E : Env P) :
    List Event :=
  let configPath := E.pathJoin E.home "config.json"
  let config : Config := ⟨"", "", ""⟩
  let loaded : List Event × Option Config :=
    if fileExists E configPath then
      match E.readFile configPath with
      | .error err => ([Event.readFile configPath, Event.fatal ("Error reading config file:" ++ err)],
          none)
      | .ok configData =>
        match Go.JSON.unmarshalConfig configData config with
        | .error err =>
          ([Event.readFile configPath, Event.fatal ("Error parsing config file:" ++ err)], none)
        | .ok config => ([Event.readFile configPath], some config)
    else ([], some config)
  match loaded.2 with
  | none => loaded.1
  | some config =>
    if config.GitLabURL = "" ∨ config.GroupID = "" ∨ config.AccessToken = "" then
      let gitlabURL := E.stdin.getD 0 ""
      let config := { config with GitLabURL := Go.TrimSpace gitlabURL }
      let groupID := E.stdin.getD 1 ""
      let config := { config with GroupID := Go.TrimSpace groupID }
      let accessToken := E.stdin.getD 2 ""
      let config := { config with AccessToken := Go.TrimSpace accessToken }
      let prompts :=
        [Event.stdout "Enter GitLab URL (e.g., https://gitlab.com): ", Event.readLine,
         Event.stdout "Enter the group ID: ", Event.readLine,
         Event.stdout "Enter the access token: ", Event.readLine]
      match Go.JSON.marshalConfig config with
      | .error err => loaded.1 ++ prompts ++ [Event.fatal ("Error serializing config:" ++ err)]
      | .ok configData =>
        match E.writeFile configPath configData 420 with
        | .error err =>
          loaded.1 ++ prompts ++ [Event.writeFile configPath configData 420,
            Event.fatal ("Error writing config file:" ++ err)]
        | .ok _ =>
          loaded.1 ++ prompts ++ [Event.writeFile configPath configData 420] ++
            fetchProjects { E with stdin := E.stdin.drop 3 } config
    else loaded.1 ++ fetchProjects E config

namespace GitlabCloner

/-- The function `main` of `src/gitlabcloner/main.go`. -/
def main (E : Env Project) : List Event := mainWith fetchProjects E

end GitlabCloner

namespace Subgroups

/-- The function `main` of `src/main.go`. -/
def main (E : Env Project) : List Event := mainWith fetchProjects E

end Subgroups

/-! ## Definitions used in the statements and proofs -/

namespace Go

/-- The number a list of decimal digits denotes. -/
def digitsValue (l : List Char) : Nat :=
  l.foldl (fun a c => 10 * a + (c.toNat - 48)) 0

end Go

/-- A `sort.Slice` that meets `SortSliceSpec`: insertion sort. -/
def insertionSortSlice {α : Type} (less : α → α → Bool) (xs : List α) : List α :=
  xs.insertionSort (fun a b => less b a = false)

namespace GitlabCloner

/-- The response to the request of `config` is read in full and decodes to `decoded`. -/
def Responds (E : Env Project) (config : Config) (decoded : List Project) : Prop :=
  ∃ body, E.httpGet (fullURL config) = .ok (.ok body) ∧ E.unmarshalProjects body = .ok decoded

end GitlabCloner

namespace Subgroups

/-- The response to the request of `config` is read in full and decodes to `decoded`. -/
def Responds (E : Env Project) (config : Config) (decoded : List Project) : Prop :=
  ∃ body, E.httpGet (fullURL config) = .ok (.ok body) ∧ E.unmarshalProjects body = .ok decoded

end Subgroups

/-! ## Sample environments -/

namespace GitlabCloner

/-- An environment without a configuration file, whose server answers every request with
`decoded`, whose standard input delivers `lines`, and in which every write and every child
process succeeds. -/
def sampleEnv (decoded : List Project) (lines : List String) : Env Project where
  home := "/home/dev"
  pathJoin := fun a b => a ++ "/" ++ b
  statNotExist := fun _ => true
  readFile := fun _ => .error "open: no such file or directory"
  writeFile := fun _ _ _ => .ok ()
  stdin := lines
  httpGet := fun _ => .ok (.ok "[]")
  unmarshalProjects := fun _ => .ok decoded
  run := fun _ _ => .ok ()
  unicodeToLower := id
  sortSlice := insertionSortSlice
  yellowString := id

/-- The configuration of the end-to-end scenario. -/
def sampleConfig : Config := ⟨"https://gitlab.example.com/", "42", "tok123"⟩

/-- The project Zeta (1) of the end-to-end scenario. -/
def zeta : Project := ⟨1, "Zeta", ⟨"g / Zeta"⟩, "https://gitlab.example.com/g/zeta.git"⟩

/-- The project alpha (2) of the end-to-end scenario. -/
def alpha : Project := ⟨2, "alpha", ⟨"g / alpha"⟩, "https://gitlab.example.com/g/alpha.git"⟩

/-- A project whose identifier is the zero value. -/
def zero1 : Project := ⟨0, "one", ⟨"g / one"⟩, "https://gitlab.example.com/g/one.git"⟩

/-- Another project whose identifier is the zero value. -/
def zero2 : Project := ⟨0, "two", ⟨"g / two"⟩, "https://gitlab.example.com/g/two.git"⟩

/-- A project with the identifier of `alpha`, listed after it. -/
def beta : Project := ⟨2, "beta", ⟨"g / beta"⟩, "https://gitlab.example.com/g/beta.git"⟩

end GitlabCloner

namespace Subgroups

/-- An environment without a configuration file, whose server answers every request with
`decoded`, whose standard input delivers `lines`, and in which every write and every child
process succeeds. -/
def sampleEnv (decoded : List Project) (lines : List String) : Env Project where
  home := "/home/dev"
  pathJoin := fun a b => a ++ "/" ++ b
  statNotExist := fun _ => true
  readFile := fun _ => .error "open: no such file or directory"
  writeFile := fun _ _ _ => .ok ()
  stdin := lines
  httpGet := fun _ => .ok (.ok "[]")
  unmarshalProjects := fun _ => .ok decoded
  run := fun _ _ => .ok ()
  unicodeToLower := id
  sortSlice := insertionSortSlice
  yellowString := id

/-- The configuration of the end-to-end scenario. -/
def sampleConfig : Config := ⟨"https://gitlab.example.com/", "42", "tok123"⟩

/-- The project Zeta (1) of the end-to-end scenario. -/
def zeta : Project :=
  ⟨1, "Zeta", ⟨"g/zeta"⟩, "https://gitlab.example.com/g/zeta.git", 0, "g / Zeta"⟩

/-- The project alpha (2) of the end-to-end scenario. -/
def alpha : Project :=
  ⟨2, "alpha", ⟨"g/alpha"⟩, "https://gitlab.example.com/g/alpha.git", 0, "g / alpha"⟩

/-- A project whose identifier is the zero value. -/
def zero1 : Project :=
  ⟨0, "one", ⟨"g/one"⟩, "https://gitlab.example.com/g/one.git", 0, "g / one"⟩

/-- Another project whose identifier is the zero value. -/
def zero2 : Project :=
  ⟨0, "two", ⟨"g/two"⟩, "https://gitlab.example.com/g/two.git", 0, "g / two"⟩

/-- A project with the identifier of `alpha`, listed after it. -/
def beta : Project :=
  ⟨2, "beta", ⟨"g/beta"⟩, "https://gitlab.example.com/g/beta.git", 0, "g / beta"⟩

end Subgroups

/-- Whether an event is a call of `http.Get`. -/
def Event.isHttpGet : Event → Bool
  | Event.httpGet _ => true
  | _ => false

/-- The tag as the specification words it: `android` when the lower-cased name has `android`
as a substring, otherwise `ios` when it has `ios` as a substring, otherwise the name itself. -/
def platformTag (lower : String → String) (n : String) : String :=
  if "android".data <:+: (lower n).data then "android"
  else if "ios".data <:+: (lower n).data then "ios"
  else n

/-- A project of an Android team. -/
def Subgroups.droid : Subgroups.Project :=
  ⟨7, "shop", ⟨"mobile/android/shop"⟩, "https://gitlab.example.com/m/a/shop.git", 0,
   "Mobile / Android / shop"⟩

/-- A project of an iOS team. -/
def Subgroups.phone : Subgroups.Project :=
  ⟨8, "Shop", ⟨"mobile/ios/shop"⟩, "https://gitlab.example.com/m/i/shop.git", 0,
   "Mobile / iOS / Shop"⟩

/-- A project whose namespaced name has both substrings. -/
def Subgroups.bridge : Subgroups.Project :=
  ⟨9, "bridge", ⟨"mobile/bridge"⟩, "https://gitlab.example.com/m/bridge.git", 0,
   "Mobile / IOS-to-ANDROID / bridge"⟩

/-- The configuration file of the end-to-end scenario, as the user may have formatted it. -/
def sampleFile : String :=
  "\x7b \"gitlab_url\": \"https://gitlab.example.com/\",\n  \"group_id\": \"42\", " ++
  "\"access_token\": \"tok123\" \x7d\n"

/-- The simple-variant environment with `sampleFile` as configuration file. -/
def GitlabCloner.configuredEnv (decoded : List GitlabCloner.Project) (lines : List String) :
    Env GitlabCloner.Project :=
  { GitlabCloner.sampleEnv decoded lines with
    statNotExist := fun _ => false
    readFile := fun _ => .ok sampleFile }

/-- The subgroup-variant environment with `sampleFile` as configuration file. -/
def Subgroups.configuredEnv (decoded : List Subgroups.Project) (lines : List String) :
    Env Subgroups.Project :=
  { Subgroups.sampleEnv decoded lines with
    statNotExist := fun _ => false
    readFile := fun _ => .ok sampleFile }

namespace Go.JSON

/-- A string literal followed by `rest`. -/
def quoted (s rest : List Char) : List Char :=
  Char.ofNat 34 :: (s.flatMap escapeChar ++ Char.ofNat 34 :: rest)

end Go.JSON

/-- The configuration `main` collects: the first three results of standard input, trimmed. -/
def collected {P : Type} (E : Env P) : Config :=
  ⟨Go.TrimSpace (E.stdin.getD 0 ""), Go.TrimSpace (E.stdin.getD 1 ""),
   Go.TrimSpace (E.stdin.getD 2 "")⟩

/-- The three prompts, each followed by the read of one line: URL, group id, token. -/
def promptEvents : List Event :=
  [Event.stdout "Enter GitLab URL (e.g., https://gitlab.com): ", Event.readLine,
   Event.stdout "Enter the group ID: ", Event.readLine,
   Event.stdout "Enter the access token: ", Event.readLine]

/-- A configuration file in which the token is missing. -/
def incompleteFile : String :=
  "\x7b\"gitlab_url\":\"https://gitlab.example.com/\",\"group_id\":\"42\"\x7d"

/-- The subgroup-variant environment with `incompleteFile` as configuration file. -/
def Subgroups.incompleteEnv (decoded : List Subgroups.Project) (lines : List String) :
    Env Subgroups.Project :=
  { Subgroups.sampleEnv decoded lines with
    statNotExist := fun _ => false
    readFile := fun _ => .ok incompleteFile }

/-! ## The function `sort.Slice` as implemented since Go 1.19 (pattern-defeating quicksort) -/

namespace Go.Sort

variable {α : Type}

/-- The call `data.Less(i, j)`: the `less` closure on the elements now at `i` and `j`. -/
def lessAt (less : α → α → Bool) (data : List α) (i j : Nat) : Bool :=
  match data[i]?, data[j]? with
  | some x, some y => less x y
  | _, _ => false

/-- The call `data.Swap(i, j)`. -/
def swapAt (data : List α) (i j : Nat) : List α :=
  match data[i]?, data[j]? with
  | some x, some y => (data.set i y).set j x
  | _, _ => data

/-- Run `body i` for `i = n - 1, n - 2, ..., 0`. -/
def forDown (body : Nat → List α → List α) : Nat → List α → List α
  | 0, data => data
  | n + 1, data => forDown body n (body n data)

/-- The inner loop of `insertionSort_func`:
`for j := i; j > a && data.Less(j, j-1); j-- { data.Swap(j, j-1) }`. -/
def insertionInner (less : α → α → Bool) (a : Nat) : Nat → List α → List α
  | 0, data => data
  | j + 1, data =>
    if a < j + 1 && lessAt less data (j + 1) j then insertionInner less a j (swapAt data (j + 1) j)
    else data

/-- The outer loop of `insertionSort_func`, from index `i`; the first argument bounds the number
of iterations. -/
def insertionOuter (less : α → α → Bool) (a b : Nat) : Nat → Nat → List α → List α
  | 0, _, data => data
  | fuel + 1, i, data =>
    if i < b then insertionOuter less a b fuel (i + 1) (insertionInner less a i data) else data

/-- The function `insertionSort_func`: sorts `data[a:b]` by insertion. -/
def insertionSort_func (less : α → α → Bool) (data : List α) (a b : Nat) : List α :=
  insertionOuter less a b (b - a) (a + 1) data

/-- The function `siftDown_func` from `root`; the first argument bounds the number of
iterations. -/
def siftDown_func (less : α → α → Bool) (hi first : Nat) : Nat → Nat → List α → List α
  | 0, _, data => data
  | fuel + 1, root, data =>
    let child := 2 * root + 1
    if hi ≤ child then data
    else
      let child :=
        if child + 1 < hi && lessAt less data (first + child) (first + child + 1) then child + 1
        else child
      if !lessAt less data (first + root) (first + child) then data
      else siftDown_func less hi first fuel child (swapAt data (first + root) (first + child))

/-- The function `heapSort_func`: sorts `data[a:b]` with a heap. -/
def heapSort_func (less : α → α → Bool) (data : List α) (a b : Nat) : List α :=
  let first := a
  let lo := 0
  let hi := b - a
  let data := forDown (fun i d => siftDown_func less hi first hi i d) ((hi - 1) / 2 + 1) data
  forDown (fun i d => siftDown_func less i first i lo (swapAt d first (first + i))) hi data

/-- The loop `for i <= j && data.Less(i, a) { i++ }`; the result is `i`. -/
def scanUpLess (less : α → α → Bool) (data : List α) (a j : Nat) : Nat → Nat → Nat
  | 0, i => i
  | fuel + 1, i =>
    if i ≤ j && lessAt less data i a then scanUpLess less data a j fuel (i + 1) else i

/-- The loop `for i <= j && !data.Less(j, a) { j-- }`; the result is `j`. -/
def scanDownNotLess (less : α → α → Bool) (data : List α) (a i : Nat) : Nat → Nat → Nat
  | 0, j => j
  | fuel + 1, j =>
    if i ≤ j && !lessAt less data j a then scanDownNotLess less data a i fuel (j - 1) else j

/-- The closing loop of `partition_func`; the result is the data and `j`. -/
def partitionLoop (less : α → α → Bool) (a : Nat) : Nat → List α → Nat → Nat → List α × Nat
  | 0, data, _, j => (data, j)
  | fuel + 1, data, i, j =>
    let i := scanUpLess less data a j data.length i
    let j := scanDownNotLess less data a i data.length j
    if j < i then (data, j)
    else partitionLoop less a fuel (swapAt data i j) (i + 1) (j - 1)

/-- The function `partition_func`: one quicksort partition of `data[a:b]` around `data[pivot]`.
The result is the data, the new index of the pivot, and whether the slice was already
partitioned. -/
def partition_func (less : α → α → Bool) (data : List α) (a b pivot : Nat) :
    List α × Nat × Bool :=
  let data := swapAt data a pivot
  let i := a + 1
  let j := b - 1
  let i := scanUpLess less data a j data.length i
  let j := scanDownNotLess less data a i data.length j
  if j < i then (swapAt data j a, j, true)
  else
    let data := swapAt data i j
    let r := partitionLoop less a data.length data (i + 1) (j - 1)
    (swapAt r.1 r.2 a, r.2, false)

/-- The loop `for i <= j && !data.Less(a, i) { i++ }`; the result is `i`. -/
def scanUpNotGreater (less : α → α → Bool) (data : List α) (a j : Nat) : Nat → Nat → Nat
  | 0, i => i
  | fuel + 1, i =>
    if i ≤ j && !lessAt less data a i then scanUpNotGreater less data a j fuel (i + 1) else i

/-- The loop `for i <= j && data.Less(a, j) { j-- }`; the result is `j`. -/
def scanDownGreater (less : α → α → Bool) (data : List α) (a i : Nat) : Nat → Nat → Nat
  | 0, j => j
  | fuel + 1, j =>
    if i ≤ j && lessAt less data a j then scanDownGreater less data a i fuel (j - 1) else j

/-- The loop of `partitionEqual_func`; the result is the data and `i`. -/
def partitionEqualLoop (less : α → α → Bool) (a : Nat) : Nat → List α → Nat → Nat → List α × Nat
  | 0, data, i, _ => (data, i)
  | fuel + 1, data, i, j =>
    let i := scanUpNotGreater less data a j data.length i
    let j := scanDownGreater less data a i data.length j
    if j < i then (data, i)
    else partitionEqualLoop less a fuel (swapAt data i j) (i + 1) (j - 1)

/-- The function `partitionEqual_func`: partitions `data[a:b]` into the elements equal to
`data[pivot]` and those greater. -/
def partitionEqual_func (less : α → α → Bool) (data : List α) (a b pivot : Nat) : List α × Nat :=
  let data := swapAt data a pivot
  partitionEqualLoop less a data.length data (a + 1) (b - 1)

/-- The loop `for j := i - 1; j >= 1; j-- { if !data.Less(j, j-1) { break }; data.Swap(j, j-1) }`
of `partialInsertionSort_func`, from `j`. -/
def shiftLeft (less : α → α → Bool) : Nat → List α → List α
  | 0, data => data
  | j + 1, data =>
    if !lessAt less data (j + 1) j then data else shiftLeft less j (swapAt data (j + 1) j)

/-- The loop `for j := i + 1; j < b; j++ { if !data.Less(j, j-1) { break }; data.Swap(j, j-1) }`
of `partialInsertionSort_func`, from `j`. -/
def shiftRight (less : α → α → Bool) (b : Nat) : Nat → Nat → List α → List α
  | 0, _, data => data
  | fuel + 1, j, data =>
    if j < b then
      if !lessAt less data j (j - 1) then data
      else shiftRight less b fuel (j + 1) (swapAt data j (j - 1))
    else data

/-- The loop `for i < b && !data.Less(i, i-1) { i++ }`; the result is `i`. -/
def skipOrdered (less : α → α → Bool) (data : List α) (b : Nat) : Nat → Nat → Nat
  | 0, i => i
  | fuel + 1, i =>
    if i < b && !lessAt less data i (i - 1) then skipOrdered less data b fuel (i + 1) else i

/-- The outer loop of `partialInsertionSort_func` (`steps` iterations remain). -/
def partialInsertionLoop (less : α → α → Bool) (a b : Nat) : Nat → Nat → List α → List α × Bool
  | 0, _, data => (data, false)
  | steps + 1, i, data =>
    let i := skipOrdered less data b data.length i
    if i = b then (data, true)
    else if b - a < 50 then (data, false)
    else
      let data := swapAt data i (i - 1)
      let data := if 2 ≤ i - a then shiftLeft less (i - 1) data else data
      let data := if 2 ≤ b - i then shiftRight less b data.length (i + 1) data else data
      partialInsertionLoop less a b steps i data

/-- The function `partialInsertionSort_func`: at most five shifts; the flag tells whether the
slice is sorted at the end. -/
def partialInsertionSort_func (less : α → α → Bool) (data : List α) (a b : Nat) : List α × Bool :=
  partialInsertionLoop less a b 5 (a + 1) data

/-- The function `bits.Len` on a 64-bit word: the number of bits needed to write `x`. -/
def bitsLen (x : Nat) : Nat :=
  (List.range 64).foldl (fun n k => if 2 ^ k ≤ x then k + 1 else n) 0

/-- The function `nextPowerOfTwo`. -/
def nextPowerOfTwo (length : Nat) : Nat := 2 ^ bitsLen length

/-- The three swaps of `breakPatterns_func`, each `data.Swap(idx-1+i, a+other)`, with the
successive states of the generator. -/
def breakPatternsLoop (next : Nat → Nat) (a length modulus idx : Nat) :
    Nat → Nat → Nat → List α → List α
  | 0, _, _, data => data
  | n + 1, i, random, data =>
    let random := next random
    let other := random % modulus
    let other := if length ≤ other then other - length else other
    breakPatternsLoop next a length modulus idx n (i + 1) random
      (swapAt data (idx - 1 + i) (a + other))

/-- The function `breakPatterns_func`; `next` is one step of the xorshift generator. -/
def breakPatterns_func (next : Nat → Nat) (data : List α) (a b : Nat) : List α :=
  let length := b - a
  if 8 ≤ length then
    breakPatternsLoop next a length (nextPowerOfTwo length) (a + (length / 4) * 2 - 1) 3 0 length
      data
  else data

/-- The hint `choosePivot_func` gives about the slice. -/
inductive sortedHint where
  | unknownHint
  | increasingHint
  | decreasingHint
deriving DecidableEq

/-- The function `order2_func`: the two indices in the order of their elements, and the count
of swaps. -/
def order2_func (less : α → α → Bool) (data : List α) (a b swaps : Nat) : Nat × Nat × Nat :=
  if lessAt less data b a then (b, a, swaps + 1) else (a, b, swaps)

/-- The function `median_func`: the index of the median of three elements, and the count of
swaps. -/
def median_func (less : α → α → Bool) (data : List α) (a b c swaps : Nat) : Nat × Nat :=
  let r1 := order2_func less data a b swaps
  let r2 := order2_func less data r1.2.1 c r1.2.2
  let r3 := order2_func less data r1.1 r2.1 r2.2.2
  (r3.2.1, r3.2.2)

/-- The function `medianAdjacent_func`. -/
def medianAdjacent_func (less : α → α → Bool) (data : List α) (a swaps : Nat) : Nat × Nat :=
  median_func less data (a - 1) a (a + 1) swaps

/-- The function `choosePivot_func`: a pivot index in `data[a:b]` and a hint. -/
def choosePivot_func (less : α → α → Bool) (data : List α) (a b : Nat) : Nat × sortedHint :=
  let l := b - a
  let i := a + l / 4 * 1
  let j := a + l / 4 * 2
  let k := a + l / 4 * 3
  let r : Nat × Nat :=
    if 8 ≤ l then
      if 50 ≤ l then
        let ri := medianAdjacent_func less data i 0
        let rj := medianAdjacent_func less data j ri.2
        let rk := medianAdjacent_func less data k rj.2
        median_func less data ri.1 rj.1 rk.1 rk.2
      else median_func less data i j k 0
    else (j, 0)
  if r.2 = 0 then (r.1, sortedHint.increasingHint)
  else if r.2 = 12 then (r.1, sortedHint.decreasingHint)
  else (r.1, sortedHint.unknownHint)

/-- The loop of `reverseRange_func`. -/
def reverseLoop : Nat → Nat → Nat → List α → List α
  | 0, _, _, data => data
  | fuel + 1, i, j, data =>
    if i < j then reverseLoop fuel (i + 1) (j - 1) (swapAt data i j) else data

/-- The function `reverseRange_func`. -/
def reverseRange_func (data : List α) (a b : Nat) : List α :=
  reverseLoop data.length a (b - 1) data

/-- The function `pdqsort_func`: sorts `data[a:b]`.  The two flags are the local variables
`wasBalanced` and `wasPartitioned`; one iteration of the `for` loop is one call.  The first
argument bounds the number of calls, and the result is `none` when it is exhausted. -/
def pdqsort_func (next : Nat → Nat) (less : α → α → Bool) :
    Nat → List α → Nat → Nat → Nat → Bool → Bool → Option (List α)
  | 0, _, _, _, _, _, _ => none
  | fuel + 1, data, a, b, limit, wasBalanced, wasPartitioned =>
    let length := b - a
    if length ≤ 12 then some (insertionSort_func less data a b)
    else if limit = 0 then some (heapSort_func less data a b)
    else
      let data := if !wasBalanced then breakPatterns_func next data a b else data
      let limit := if !wasBalanced then limit - 1 else limit
      let ph := choosePivot_func less data a b
      let data := if ph.2 = sortedHint.decreasingHint then reverseRange_func data a b else data
      let pivot := if ph.2 = sortedHint.decreasingHint then (b - 1) - (ph.1 - a) else ph.1
      let hint := if ph.2 = sortedHint.decreasingHint then sortedHint.increasingHint else ph.2
      let tried :=
        if wasBalanced && wasPartitioned && hint = sortedHint.increasingHint then
          partialInsertionSort_func less data a b
        else (data, false)
      if tried.2 then some tried.1
      else
        let data := tried.1
        if 0 < a && !lessAt less data (a - 1) pivot then
          let r := partitionEqual_func less data a b pivot
          pdqsort_func next less fuel r.1 r.2 b limit wasBalanced wasPartitioned
        else
          let r := partition_func less data a b pivot
          let mid := r.2.1
          let leftLen := mid - a
          let rightLen := b - mid
          let balanceThreshold := length / 8
          if leftLen < rightLen then
            match pdqsort_func next less fuel r.1 a mid limit true true with
            | none => none
            | some data =>
              pdqsort_func next less fuel data (mid + 1) b limit
                (decide (balanceThreshold ≤ leftLen)) r.2.2
          else
            match pdqsort_func next less fuel r.1 (mid + 1) b limit true true with
            | none => none
            | some data =>
              pdqsort_func next less fuel data a mid limit
                (decide (balanceThreshold ≤ rightLen)) r.2.2

/-- One step of a xorshift generator on a 64-bit word, with the shifts 13, 7 and 17 of
`xorshift.Next` (earlier releases shift by 13, 17 and 5).  Only `breakPatterns_func` consults
the generator. -/
def xorshiftNext (r : Nat) : Nat :=
  let r := Nat.xor r ((r * 2 ^ 13) % 2 ^ 64)
  let r := Nat.xor r (r / 2 ^ 7)
  Nat.xor r ((r * 2 ^ 17) % 2 ^ 64)

/-- The same step with the shifts 13, 17 and 5 of earlier releases. -/
def xorshiftNextOld (r : Nat) : Nat :=
  let r := Nat.xor r ((r * 2 ^ 13) % 2 ^ 64)
  let r := Nat.xor r (r / 2 ^ 17)
  Nat.xor r ((r * 2 ^ 5) % 2 ^ 64)

/-- The function `sort.Slice` as implemented since Go 1.19, on the content of the slice, given
the step function of the generator; `none` only if the bound on the number of calls were
exceeded. -/
def Slice (next : Nat → Nat) (less : α → α → Bool) (x : List α) : Option (List α) :=
  let length := x.length
  let limit := bitsLen length
  pdqsort_func next less (2 * length + 2) x 0 length limit true true

end Go.Sort

/-! ## Thirteen projects and the environments that sort them as Go does -/

/-- The names of thirteen projects in decoded order; the second and the third are equal up to
letter case. -/
def thirteenNames : List String :=
  ["g", "Tie", "tie", "c", "d", "e", "m", "p", "q", "r", "s", "a", "b"]

/-- Thirteen projects of the simple variant, with identifiers 1 to 13 in decoded order. -/
def GitlabCloner.thirteen : List GitlabCloner.Project :=
  thirteenNames.enum.map (fun x => ⟨x.1 + 1, x.2, ⟨""⟩, ""⟩)

/-- Thirteen projects of the subgroup variant, with identifiers 1 to 13 in decoded order. -/
def Subgroups.thirteen : List Subgroups.Project :=
  thirteenNames.enum.map (fun x => ⟨x.1 + 1, x.2, ⟨""⟩, "", 0, ""⟩)

/-- The sample environment of the simple variant with the `sort.Slice` of Go 1.19 and later. -/
def GitlabCloner.pdqEnv (decoded : List GitlabCloner.Project) (lines : List String) :
    Env GitlabCloner.Project :=
  { GitlabCloner.sampleEnv decoded lines with
    sortSlice := fun less xs => (Go.Sort.Slice Go.Sort.xorshiftNext less xs).getD xs }

/-- The sample environment of the subgroup variant with the `sort.Slice` of Go 1.19 and
later. -/
def Subgroups.pdqEnv (decoded : List Subgroups.Project) (lines : List String) :
    Env Subgroups.Project :=
  { Subgroups.sampleEnv decoded lines with
    sortSlice := fun less xs => (Go.Sort.Slice Go.Sort.xorshiftNext less xs).getD xs }

/-- A `sort.Slice` that reverses its input before sorting it by insertion. -/
def reversingSortSlice {α : Type} (less : α → α → Bool) (xs : List α) : List α :=
  insertionSortSlice less xs.reverse

/-- A project named like `alpha` up to letter case, decoded before it. -/
def GitlabCloner.alphaUpper : GitlabCloner.Project :=
  ⟨5, "ALPHA", ⟨"g / ALPHA"⟩, "https://gitlab.example.com/g/alpha-upper.git"⟩

/-- A project named like `alpha` up to letter case, decoded before it. -/
def Subgroups.alphaUpper : Subgroups.Project :=
  ⟨5, "ALPHA", ⟨"g/alpha-upper"⟩, "https://gitlab.example.com/g/alpha-upper.git", 0,
   "g / ALPHA"⟩

/-! # Theorems -/

/-! ## Lemmas on the library routines -/

namespace Go

theorem digitChar_toNat (d : Nat) (h : d < 10) : (digitChar d).toNat = 48 + d := by
  unfold digitChar
  interval_cases d <;> rfl

theorem digitChar_ne_minus (d : Nat) (h : d < 10) : digitChar d ≠ Char.ofNat 45 := by
  unfold digitChar
  interval_cases d <;> decide

theorem fmtDigits_append (fuel u : Nat) (buf : List Char) :
    fmtDigits fuel u buf = fmtDigits fuel u [] ++ buf := by
  induction fuel generalizing u buf with
  | zero => simp [fmtDigits]
  | succ n ih =>
    unfold fmtDigits
    split
    · rw [ih (u / 10) (digitChar (u % 10) :: buf), ih (u / 10) [digitChar (u % 10)]]
      simp
    · simp

theorem digitsValue_snoc (l : List Char) (c : Char) :
    digitsValue (l ++ [c]) = 10 * digitsValue l + (c.toNat - 48) := by
  simp [digitsValue, List.foldl_append]

theorem digitsValue_fmtDigits (fuel u : Nat) (h : u ≤ fuel) :
    digitsValue (fmtDigits fuel u []) = u := by
  induction fuel generalizing u with
  | zero =>
    have hu : u = 0 := by omega
    subst hu
    rfl
  | succ n ih =>
    unfold fmtDigits
    split
    · rw [fmtDigits_append, digitsValue_snoc, ih (u / 10) (by omega),
        digitChar_toNat (u % 10) (by omega)]
      omega
    · have hd := digitChar_toNat u (by omega)
      simp [digitsValue, hd]

theorem fmtDigits_digit (fuel u : Nat) (h : u ≤ fuel) :
    ∀ c ∈ fmtDigits fuel u [], ∃ d, d < 10 ∧ c = digitChar d := by
  induction fuel generalizing u with
  | zero =>
    have hu : u = 0 := by omega
    subst hu
    intro c hc
    simp [fmtDigits] at hc
    exact ⟨0, by omega, hc⟩
  | succ n ih =>
    intro c hc
    unfold fmtDigits at hc
    split at hc
    · rw [fmtDigits_append] at hc
      rcases List.mem_append.1 hc with h1 | h1
      · exact ih (u / 10) (by omega) c h1
      · simp at h1
        exact ⟨u % 10, by omega, h1⟩
    · simp at hc
      exact ⟨u, by omega, hc⟩

theorem minus_not_mem_fmtDigits (u : Nat) : Char.ofNat 45 ∉ fmtDigits u u [] := by
  intro hc
  obtain ⟨d, hd, hcd⟩ := fmtDigits_digit u u (le_refl u) _ hc
  exact digitChar_ne_minus d hd hcd.symm

theorem ltChars_irrefl (l : List Char) : ltChars l l = false := by
  induction l with
  | nil => rfl
  | cons a l ih => simp [ltChars, ih]

theorem ltChars_trans (a b c : List Char) (h1 : ltChars a b = true) (h2 : ltChars b c = true) :
    ltChars a c = true := by
  induction a generalizing b c with
  | nil =>
    cases c with
    | nil => cases b <;> simp [ltChars] at h2
    | cons z zs => rfl
  | cons x xs ih =>
    cases b with
    | nil => simp [ltChars] at h1
    | cons y ys =>
      cases c with
      | nil => simp [ltChars] at h2
      | cons z zs =>
        simp only [ltChars] at h1 h2 ⊢
        split_ifs at h1 h2 ⊢ <;> first | rfl | omega | simp at h1 | simp at h2 | exact ih ys zs h1 h2

theorem ltChars_negTrans (a b c : List Char) (h1 : ltChars a b = false)
    (h2 : ltChars b c = false) : ltChars a c = false := by
  induction a generalizing b c with
  | nil =>
    cases c with
    | nil => rfl
    | cons z zs =>
      cases b with
      | nil => simp [ltChars] at h2
      | cons y ys => simp [ltChars] at h1
  | cons x xs ih =>
    cases c with
    | nil => rfl
    | cons z zs =>
      cases b with
      | nil => simp [ltChars] at h2
      | cons y ys =>
        simp only [ltChars] at h1 h2 ⊢
        split_ifs at h1 h2 ⊢ <;> first | rfl | omega | simp at h1 | simp at h2 | exact ih ys zs h1 h2

/-- The decimal form determines the number: `fmt.Sprint` is injective on `int`. -/
theorem Sprint_injective (v w : Int) (h : Sprint v = Sprint w) : v = w := by
  unfold Sprint at h
  by_cases hv : v < 0 <;> by_cases hw : w < 0
  · rw [if_pos hv, if_pos hw] at h
    have h2 : fmtDigits v.natAbs v.natAbs [] = fmtDigits w.natAbs w.natAbs [] := by
      injection h with h1
      injection h1
    have h3 := congrArg digitsValue h2
    rw [digitsValue_fmtDigits _ _ (le_refl _), digitsValue_fmtDigits _ _ (le_refl _)] at h3
    omega
  · rw [if_pos hv, if_neg hw] at h
    exfalso
    injection h with h1
    exact minus_not_mem_fmtDigits w.natAbs (h1 ▸ List.mem_cons_self _ _)
  · rw [if_neg hv, if_pos hw] at h
    exfalso
    injection h with h1
    exact minus_not_mem_fmtDigits v.natAbs (h1 ▸ List.mem_cons_self _ _)
  · rw [if_neg hv, if_neg hw] at h
    have h2 : fmtDigits v.natAbs v.natAbs [] = fmtDigits w.natAbs w.natAbs [] := by
      injection h
    have h3 := congrArg digitsValue h2
    rw [digitsValue_fmtDigits _ _ (le_refl _), digitsValue_fmtDigits _ _ (le_refl _)] at h3
    omega

end Go

/-! ## Lemmas on the two programs -/

theorem insertionSortSlice_spec {α : Type} :
    SortSliceSpec (insertionSortSlice : (α → α → Bool) → List α → List α) := by
  constructor
  · intro less xs
    exact List.perm_insertionSort _ xs
  · intro less xs h
    haveI : IsTotal α (fun a b => less b a = false) := ⟨fun a b => by
      by_cases h1 : less b a = false
      · exact Or.inl h1
      · right
        by_contra h2
        have h3 := h.trans a b a (by simpa using h2) (by simpa using h1)
        simp [h.irrefl a] at h3⟩
    haveI : IsTrans α (fun a b => less b a = false) := ⟨fun a b c hab hbc =>
      h.negTrans c b a hbc hab⟩
    exact List.sorted_insertionSort _ xs

namespace GitlabCloner

theorem fetchProjects_eq (E : Env Project) (config : Config) (decoded : List Project)
    (h : Responds E config decoded) :
    fetchProjects E config = Event.httpGet (fullURL config) :: listAndClone E decoded := by
  obtain ⟨body, h1, h2⟩ := h
  simp [fetchProjects, h1, h2]

theorem selectLoop_none (projectID : String) (l : List Project) (z : Project)
    (h : ∀ p ∈ l, Go.Sprint p.ID ≠ projectID) : selectLoop projectID l z = z := by
  induction l with
  | nil => rfl
  | cons a l ih =>
    have ha := h a (List.mem_cons_self _ _)
    simp only [selectLoop, if_neg ha]
    exact ih (fun p hp => h p (List.mem_cons_of_mem _ hp))

theorem selectLoop_first (projectID : String) (l1 l2 : List Project) (p z : Project)
    (h1 : ∀ q ∈ l1, Go.Sprint q.ID ≠ projectID) (hp : Go.Sprint p.ID = projectID) :
    selectLoop projectID (l1 ++ p :: l2) z = p := by
  induction l1 with
  | nil => simp [selectLoop, hp]
  | cons a l ih =>
    have ha := h1 a (List.mem_cons_self _ _)
    simp only [List.cons_append, selectLoop, if_neg ha]
    exact ih (fun q hq => h1 q (List.mem_cons_of_mem _ hq))

theorem selectLoop_unique (projectID : String) (l : List Project) (p z : Project)
    (hmem : p ∈ l) (hp : Go.Sprint p.ID = projectID)
    (huniq : ∀ q ∈ l, Go.Sprint q.ID = projectID → q = p) :
    selectLoop projectID l z = p := by
  induction l with
  | nil => simp at hmem
  | cons a l ih =>
    by_cases ha : Go.Sprint a.ID = projectID
    · simp only [selectLoop, if_pos ha]
      exact huniq a (List.mem_cons_self _ _) ha
    · simp only [selectLoop, if_neg ha]
      have hne : p ≠ a := fun e => ha (e ▸ hp)
      have hmem2 : p ∈ l := by
        rcases List.mem_cons.1 hmem with e | e
        · exact absurd e hne
        · exact e
      exact ih hmem2 (fun q hq => huniq q (List.mem_cons_of_mem _ hq))

theorem listAndClone_eq (E : Env Project) (decoded : List Project) (sel : Project)
    (h : selectLoop (Go.TrimSpace (E.stdin.headD "")) (E.sortSlice (less E) decoded)
      Project.zero = sel) :
    listAndClone E decoded =
      Event.stdout "Available Projects:\n" ::
        ((E.sortSlice (less E) decoded).map listLine ++
          ([Event.stdout "Enter the project ID to clone: ", Event.readLine] ++
            (if sel.ID = 0 then [Event.fatal "Invalid project selected"]
             else cloneStep E sel))) := by
  unfold listAndClone
  simp only []
  rw [h]
  by_cases h0 : sel.ID = 0
  · simp [h0]
  · simp [h0]

theorem less_strictWeakOrder (E : Env Project) : StrictWeakOrder (less E) := by
  constructor
  · intro a
    exact Go.ltChars_irrefl _
  · intro a b c h1 h2
    exact Go.ltChars_trans _ _ _ h1 h2
  · intro a b c h1 h2
    exact Go.ltChars_negTrans _ _ _ h1 h2

end GitlabCloner

namespace Subgroups

theorem fetchProjects_eq_sg (E : Env Project) (config : Config) (decoded : List Project)
    (h : Responds E config decoded) :
    fetchProjects E config = Event.httpGet (fullURL config) :: listAndClone E decoded := by
  obtain ⟨body, h1, h2⟩ := h
  simp [fetchProjects, h1, h2]

theorem selectLoop_none_sg (projectID : String) (l : List Project) (z : Project)
    (h : ∀ p ∈ l, Go.Sprint p.ID ≠ projectID) : selectLoop projectID l z = z := by
  induction l with
  | nil => rfl
  | cons a l ih =>
    have ha := h a (List.mem_cons_self _ _)
    simp only [selectLoop, if_neg ha]
    exact ih (fun p hp => h p (List.mem_cons_of_mem _ hp))

theorem selectLoop_first_sg (projectID : String) (l1 l2 : List Project) (p z : Project)
    (h1 : ∀ q ∈ l1, Go.Sprint q.ID ≠ projectID) (hp : Go.Sprint p.ID = projectID) :
    selectLoop projectID (l1 ++ p :: l2) z = p := by
  induction l1 with
  | nil => simp [selectLoop, hp]
  | cons a l ih =>
    have ha := h1 a (List.mem_cons_self _ _)
    simp only [List.cons_append, selectLoop, if_neg ha]
    exact ih (fun q hq => h1 q (List.mem_cons_of_mem _ hq))

theorem selectLoop_unique_sg (projectID : String) (l : List Project) (p z : Project)
    (hmem : p ∈ l) (hp : Go.Sprint p.ID = projectID)
    (huniq : ∀ q ∈ l, Go.Sprint q.ID = projectID → q = p) :
    selectLoop projectID l z = p := by
  induction l with
  | nil => simp at hmem
  | cons a l ih =>
    by_cases ha : Go.Sprint a.ID = projectID
    · simp only [selectLoop, if_pos ha]
      exact huniq a (List.mem_cons_self _ _) ha
    · simp only [selectLoop, if_neg ha]
      have hne : p ≠ a := fun e => ha (e ▸ hp)
      have hmem2 : p ∈ l := by
        rcases List.mem_cons.1 hmem with e | e
        · exact absurd e hne
        · exact e
      exact ih hmem2 (fun q hq => huniq q (List.mem_cons_of_mem _ hq))

theorem listAndClone_eq_sg (E : Env Project) (decoded : List Project) (sel : Project)
    (h : selectLoop (Go.TrimSpace (E.stdin.headD "")) (E.sortSlice (less E) decoded)
      Project.zero = sel) :
    listAndClone E decoded =
      Event.stdout "Available Projects:\n" ::
        ((E.sortSlice (less E) decoded).map (listLine E) ++
          ([Event.stdout "Enter the project ID to clone: ", Event.readLine] ++
            (if sel.ID = 0 then [Event.fatal "Invalid project selected"]
             else cloneStep E sel))) := by
  unfold listAndClone
  simp only []
  rw [h]
  by_cases h0 : sel.ID = 0
  · simp [h0]
  · simp [h0]

theorem less_strictWeakOrder_sg (E : Env Project) : StrictWeakOrder (less E) := by
  constructor
  · intro a
    exact Go.ltChars_irrefl _
  · intro a b c h1 h2
    exact Go.ltChars_trans _ _ _ h1 h2
  · intro a b c h1 h2
    exact Go.ltChars_negTrans _ _ _ h1 h2

end Subgroups

/-! ## Selection -/

/-- C2: in both variants, for every decoded project list (the empty one included) and every
input line whose trimmed form is the decimal form of no project identifier in the list, the run
ends in the fatal outcome "Invalid project selected" and no child process is ever run. -/
theorem invalid_selection_is_fatal :
    (∀ (E : Env GitlabCloner.Project) (config : Config) (decoded : List GitlabCloner.Project),
      SortSliceSpec E.sortSlice → GitlabCloner.Responds E config decoded →
      (∀ p ∈ decoded, Go.Sprint p.ID ≠ Go.TrimSpace (E.stdin.headD "")) →
      GitlabCloner.fetchProjects E config =
        Event.httpGet (GitlabCloner.fullURL config) :: Event.stdout "Available Projects:\n" ::
          ((E.sortSlice (GitlabCloner.less E) decoded).map GitlabCloner.listLine ++
            [Event.stdout "Enter the project ID to clone: ", Event.readLine,
             Event.fatal "Invalid project selected"]) ∧
      ∀ name args, Event.run name args ∉ GitlabCloner.fetchProjects E config) ∧
    (∀ (E : Env Subgroups.Project) (config : Config) (decoded : List Subgroups.Project),
      SortSliceSpec E.sortSlice → Subgroups.Responds E config decoded →
      (∀ p ∈ decoded, Go.Sprint p.ID ≠ Go.TrimSpace (E.stdin.headD "")) →
      Subgroups.fetchProjects E config =
        Event.httpGet (Subgroups.fullURL config) :: Event.stdout "Available Projects:\n" ::
          ((E.sortSlice (Subgroups.less E) decoded).map (Subgroups.listLine E) ++
            [Event.stdout "Enter the project ID to clone: ", Event.readLine,
             Event.fatal "Invalid project selected"]) ∧
      ∀ name args, Event.run name args ∉ Subgroups.fetchProjects E config) := by
  constructor
  · intro E config decoded hs hr hno
    have hsel : GitlabCloner.selectLoop (Go.TrimSpace (E.stdin.headD ""))
        (E.sortSlice (GitlabCloner.less E) decoded) GitlabCloner.Project.zero =
        GitlabCloner.Project.zero :=
      GitlabCloner.selectLoop_none _ _ _ (fun p hp => hno p ((hs.perm _ _).mem_iff.1 hp))
    have htrace : GitlabCloner.fetchProjects E config =
        Event.httpGet (GitlabCloner.fullURL config) :: Event.stdout "Available Projects:\n" ::
          ((E.sortSlice (GitlabCloner.less E) decoded).map GitlabCloner.listLine ++
            [Event.stdout "Enter the project ID to clone: ", Event.readLine,
             Event.fatal "Invalid project selected"]) := by
      rw [GitlabCloner.fetchProjects_eq E config decoded hr,
        GitlabCloner.listAndClone_eq E decoded _ hsel]
      simp [GitlabCloner.Project.zero]
    refine ⟨htrace, ?_⟩
    intro name args hmem
    rw [htrace] at hmem
    simp [GitlabCloner.listLine] at hmem
  · intro E config decoded hs hr hno
    have hsel : Subgroups.selectLoop (Go.TrimSpace (E.stdin.headD ""))
        (E.sortSlice (Subgroups.less E) decoded) Subgroups.Project.zero =
        Subgroups.Project.zero :=
      Subgroups.selectLoop_none_sg _ _ _ (fun p hp => hno p ((hs.perm _ _).mem_iff.1 hp))
    have htrace : Subgroups.fetchProjects E config =
        Event.httpGet (Subgroups.fullURL config) :: Event.stdout "Available Projects:\n" ::
          ((E.sortSlice (Subgroups.less E) decoded).map (Subgroups.listLine E) ++
            [Event.stdout "Enter the project ID to clone: ", Event.readLine,
             Event.fatal "Invalid project selected"]) := by
      rw [Subgroups.fetchProjects_eq_sg E config decoded hr,
        Subgroups.listAndClone_eq_sg E decoded _ hsel]
      simp [Subgroups.Project.zero]
    refine ⟨htrace, ?_⟩
    intro name args hmem
    rw [htrace] at hmem
    simp [Subgroups.listLine] at hmem

/-- Witness of C2: the operator enters `2` when the only project has identifier 1 (simple
variant), and enters `7` when the list is empty (subgroup variant). -/
theorem invalid_selection_is_fatal_witness :
    (GitlabCloner.fetchProjects (GitlabCloner.sampleEnv [GitlabCloner.zeta] ["2\n"])
        GitlabCloner.sampleConfig =
      [Event.httpGet "https://gitlab.example.com/api/v4/groups/42/projects?private_token=tok123",
       Event.stdout "Available Projects:\n", Event.stdout "Zeta 1\n",
       Event.stdout "Enter the project ID to clone: ", Event.readLine,
       Event.fatal "Invalid project selected"] ∧
     ∀ name args, Event.run name args ∉
       GitlabCloner.fetchProjects (GitlabCloner.sampleEnv [GitlabCloner.zeta] ["2\n"])
         GitlabCloner.sampleConfig) ∧
    (Subgroups.fetchProjects (Subgroups.sampleEnv [] ["7\n"]) Subgroups.sampleConfig =
      [Event.httpGet ("https://gitlab.example.com/api/v4/groups/42/projects" ++
         "?include_subgroups=true&private_token=tok123&per_page=100"),
       Event.stdout "Available Projects:\n",
       Event.stdout "Enter the project ID to clone: ", Event.readLine,
       Event.fatal "Invalid project selected"] ∧
     ∀ name args, Event.run name args ∉
       Subgroups.fetchProjects (Subgroups.sampleEnv [] ["7\n"]) Subgroups.sampleConfig) :=
  ⟨invalid_selection_is_fatal.1 (GitlabCloner.sampleEnv [GitlabCloner.zeta] ["2\n"])
      GitlabCloner.sampleConfig [GitlabCloner.zeta] insertionSortSlice_spec ⟨"[]", rfl, rfl⟩
      (by decide),
   invalid_selection_is_fatal.2 (Subgroups.sampleEnv [] ["7\n"])
      Subgroups.sampleConfig [] insertionSortSlice_spec ⟨"[]", rfl, rfl⟩ (by decide)⟩

/-- C1 fails as stated, in both variants.  A project whose identifier is 0 is matched by the
line `0`, but the run ends in "Invalid project selected" and nothing is cloned.  And of two
projects with the same identifier only the first in the displayed order is ever cloned. -/
theorem matching_selection_not_always_cloned :
    (GitlabCloner.zero1 ∈ [GitlabCloner.zero1] ∧
     Go.TrimSpace "0\n" = Go.Sprint GitlabCloner.zero1.ID ∧
     GitlabCloner.fetchProjects (GitlabCloner.sampleEnv [GitlabCloner.zero1] ["0\n"])
        GitlabCloner.sampleConfig =
      [Event.httpGet "https://gitlab.example.com/api/v4/groups/42/projects?private_token=tok123",
       Event.stdout "Available Projects:\n", Event.stdout "one 0\n",
       Event.stdout "Enter the project ID to clone: ", Event.readLine,
       Event.fatal "Invalid project selected"]) ∧
    (Subgroups.zero1 ∈ [Subgroups.zero1] ∧
     Go.TrimSpace "0\n" = Go.Sprint Subgroups.zero1.ID ∧
     Subgroups.fetchProjects (Subgroups.sampleEnv [Subgroups.zero1] ["0\n"])
        Subgroups.sampleConfig =
      [Event.httpGet ("https://gitlab.example.com/api/v4/groups/42/projects" ++
         "?include_subgroups=true&private_token=tok123&per_page=100"),
       Event.stdout "Available Projects:\n", Event.stdout "one 0 g / one\n",
       Event.stdout "Enter the project ID to clone: ", Event.readLine,
       Event.fatal "Invalid project selected"]) ∧
    (GitlabCloner.beta ∈ [GitlabCloner.alpha, GitlabCloner.beta] ∧
     Go.TrimSpace "2\n" = Go.Sprint GitlabCloner.beta.ID ∧
     Event.run "git" ["clone", GitlabCloner.beta.HTTPURLToRepo] ∉
       GitlabCloner.fetchProjects
         (GitlabCloner.sampleEnv [GitlabCloner.alpha, GitlabCloner.beta] ["2\n"])
         GitlabCloner.sampleConfig) ∧
    (Subgroups.beta ∈ [Subgroups.alpha, Subgroups.beta] ∧
     Go.TrimSpace "2\n" = Go.Sprint Subgroups.beta.ID ∧
     Event.run "git" ["clone", Subgroups.beta.HTTPURLToRepo] ∉
       Subgroups.fetchProjects
         (Subgroups.sampleEnv [Subgroups.alpha, Subgroups.beta] ["2\n"])
         Subgroups.sampleConfig) := by
  refine ⟨⟨?_, ?_, ?_⟩, ⟨?_, ?_, ?_⟩, ⟨?_, ?_, ?_⟩, ⟨?_, ?_, ?_⟩⟩ <;> decide

/-- C1, amended: in both variants, for every decoded project list and every line read at the
prompt, if the trimmed line is the decimal form of the identifier of a project in the list,
that identifier is not 0 and no other project of the list has it, then that project is the one
selected and the clone step runs `git clone` with exactly its `HTTPURLToRepo`. -/
theorem matching_selection_is_cloned :
    (∀ (E : Env GitlabCloner.Project) (config : Config) (decoded : List GitlabCloner.Project),
      SortSliceSpec E.sortSlice → GitlabCloner.Responds E config decoded →
      ∀ p ∈ decoded, Go.TrimSpace (E.stdin.headD "") = Go.Sprint p.ID → p.ID ≠ 0 →
      (∀ q ∈ decoded, q.ID = p.ID → q = p) →
      GitlabCloner.selectLoop (Go.TrimSpace (E.stdin.headD ""))
        (E.sortSlice (GitlabCloner.less E) decoded) GitlabCloner.Project.zero = p ∧
      GitlabCloner.fetchProjects E config =
        Event.httpGet (GitlabCloner.fullURL config) :: Event.stdout "Available Projects:\n" ::
          ((E.sortSlice (GitlabCloner.less E) decoded).map GitlabCloner.listLine ++
            ([Event.stdout "Enter the project ID to clone: ", Event.readLine] ++
              GitlabCloner.cloneStep E p)) ∧
      Event.run "git" ["clone", p.HTTPURLToRepo] ∈ GitlabCloner.fetchProjects E config) ∧
    (∀ (E : Env Subgroups.Project) (config : Config) (decoded : List Subgroups.Project),
      SortSliceSpec E.sortSlice → Subgroups.Responds E config decoded →
      ∀ p ∈ decoded, Go.TrimSpace (E.stdin.headD "") = Go.Sprint p.ID → p.ID ≠ 0 →
      (∀ q ∈ decoded, q.ID = p.ID → q = p) →
      Subgroups.selectLoop (Go.TrimSpace (E.stdin.headD ""))
        (E.sortSlice (Subgroups.less E) decoded) Subgroups.Project.zero = p ∧
      Subgroups.fetchProjects E config =
        Event.httpGet (Subgroups.fullURL config) :: Event.stdout "Available Projects:\n" ::
          ((E.sortSlice (Subgroups.less E) decoded).map (Subgroups.listLine E) ++
            ([Event.stdout "Enter the project ID to clone: ", Event.readLine] ++
              Subgroups.cloneStep E p)) ∧
      Event.run "git" ["clone", p.HTTPURLToRepo] ∈ Subgroups.fetchProjects E config) := by
  constructor
  · intro E config decoded hs hr p hp hline h0 huniq
    have hsel : GitlabCloner.selectLoop (Go.TrimSpace (E.stdin.headD ""))
        (E.sortSlice (GitlabCloner.less E) decoded) GitlabCloner.Project.zero = p :=
      GitlabCloner.selectLoop_unique _ _ p _ ((hs.perm _ _).mem_iff.2 hp) hline.symm
        (fun q hq hqs => huniq q ((hs.perm _ _).mem_iff.1 hq)
          (Go.Sprint_injective _ _ (hqs.trans hline)))
    have htrace : GitlabCloner.fetchProjects E config =
        Event.httpGet (GitlabCloner.fullURL config) :: Event.stdout "Available Projects:\n" ::
          ((E.sortSlice (GitlabCloner.less E) decoded).map GitlabCloner.listLine ++
            ([Event.stdout "Enter the project ID to clone: ", Event.readLine] ++
              GitlabCloner.cloneStep E p)) := by
      rw [GitlabCloner.fetchProjects_eq E config decoded hr,
        GitlabCloner.listAndClone_eq E decoded _ hsel, if_neg h0]
    refine ⟨hsel, htrace, ?_⟩
    rw [htrace]
    simp [GitlabCloner.cloneStep]
  · intro E config decoded hs hr p hp hline h0 huniq
    have hsel : Subgroups.selectLoop (Go.TrimSpace (E.stdin.headD ""))
        (E.sortSlice (Subgroups.less E) decoded) Subgroups.Project.zero = p :=
      Subgroups.selectLoop_unique_sg _ _ p _ ((hs.perm _ _).mem_iff.2 hp) hline.symm
        (fun q hq hqs => huniq q ((hs.perm _ _).mem_iff.1 hq)
          (Go.Sprint_injective _ _ (hqs.trans hline)))
    have htrace : Subgroups.fetchProjects E config =
        Event.httpGet (Subgroups.fullURL config) :: Event.stdout "Available Projects:\n" ::
          ((E.sortSlice (Subgroups.less E) decoded).map (Subgroups.listLine E) ++
            ([Event.stdout "Enter the project ID to clone: ", Event.readLine] ++
              Subgroups.cloneStep E p)) := by
      rw [Subgroups.fetchProjects_eq_sg E config decoded hr,
        Subgroups.listAndClone_eq_sg E decoded _ hsel, if_neg h0]
    refine ⟨hsel, htrace, ?_⟩
    rw [htrace]
    simp [Subgroups.cloneStep]

/-- Witness of the amended C1: with projects Zeta (1) and alpha (2) the line ` 2` selects and
clones alpha. -/
theorem matching_selection_is_cloned_witness :
    (GitlabCloner.selectLoop
        (Go.TrimSpace
          ((GitlabCloner.sampleEnv [GitlabCloner.zeta, GitlabCloner.alpha] [" 2\n"]).stdin.headD ""))
        ((GitlabCloner.sampleEnv [GitlabCloner.zeta, GitlabCloner.alpha] [" 2\n"]).sortSlice
          (GitlabCloner.less (GitlabCloner.sampleEnv [GitlabCloner.zeta, GitlabCloner.alpha] [" 2\n"]))
          [GitlabCloner.zeta, GitlabCloner.alpha])
        GitlabCloner.Project.zero = GitlabCloner.alpha ∧
      GitlabCloner.fetchProjects (GitlabCloner.sampleEnv [GitlabCloner.zeta, GitlabCloner.alpha] [" 2\n"])
          GitlabCloner.sampleConfig =
        Event.httpGet (GitlabCloner.fullURL GitlabCloner.sampleConfig) ::
          Event.stdout "Available Projects:\n" ::
          (((GitlabCloner.sampleEnv [GitlabCloner.zeta, GitlabCloner.alpha] [" 2\n"]).sortSlice
              (GitlabCloner.less
                (GitlabCloner.sampleEnv [GitlabCloner.zeta, GitlabCloner.alpha] [" 2\n"]))
              [GitlabCloner.zeta, GitlabCloner.alpha]).map GitlabCloner.listLine ++
            ([Event.stdout "Enter the project ID to clone: ", Event.readLine] ++
              GitlabCloner.cloneStep
                (GitlabCloner.sampleEnv [GitlabCloner.zeta, GitlabCloner.alpha] [" 2\n"])
                GitlabCloner.alpha)) ∧
      Event.run "git" ["clone", GitlabCloner.alpha.HTTPURLToRepo] ∈
        GitlabCloner.fetchProjects
          (GitlabCloner.sampleEnv [GitlabCloner.zeta, GitlabCloner.alpha] [" 2\n"])
          GitlabCloner.sampleConfig) ∧
    (Event.run "git" ["clone", "https://gitlab.example.com/g/alpha.git"] ∈
        Subgroups.fetchProjects (Subgroups.sampleEnv [Subgroups.zeta, Subgroups.alpha] [" 2\n"])
          Subgroups.sampleConfig) :=
  ⟨matching_selection_is_cloned.1
      (GitlabCloner.sampleEnv [GitlabCloner.zeta, GitlabCloner.alpha] [" 2\n"])
      GitlabCloner.sampleConfig [GitlabCloner.zeta, GitlabCloner.alpha] insertionSortSlice_spec
      ⟨"[]", rfl, rfl⟩ GitlabCloner.alpha (by decide) (by decide) (by decide) (by decide),
   (matching_selection_is_cloned.2
      (Subgroups.sampleEnv [Subgroups.zeta, Subgroups.alpha] [" 2\n"])
      Subgroups.sampleConfig [Subgroups.zeta, Subgroups.alpha] insertionSortSlice_spec
      ⟨"[]", rfl, rfl⟩ Subgroups.alpha (by decide) (by decide) (by decide) (by decide)).2.2⟩

theorem GitlabCloner.run_mem_cloneStep (E : Env GitlabCloner.Project) (p : GitlabCloner.Project)
    (name : String) (args : List String) (h : Event.run name args ∈ GitlabCloner.cloneStep E p) :
    name = "git" ∧ args = ["clone", p.HTTPURLToRepo] := by
  simp only [GitlabCloner.cloneStep] at h
  generalize E.run "git" ["clone", p.HTTPURLToRepo] = r at h
  cases r <;> simpa using h

theorem Subgroups.run_mem_cloneStep_sg (E : Env Subgroups.Project) (p : Subgroups.Project)
    (name : String) (args : List String) (h : Event.run name args ∈ Subgroups.cloneStep E p) :
    name = "git" ∧ args = ["clone", p.HTTPURLToRepo] := by
  simp only [Subgroups.cloneStep] at h
  generalize E.run "git" ["clone", p.HTTPURLToRepo] = r at h
  cases r <;> simpa using h

/-- C10 fails as stated, in both variants.  Two projects share the identifier 0 and the line
read is `0`: the first of the displayed order is the one the loop assigns, but the run ends in
"Invalid project selected" and the `HTTPURLToRepo` of that first project is not cloned. -/
theorem first_match_with_zero_identifier_not_cloned :
    (GitlabCloner.zero1.ID = GitlabCloner.zero2.ID ∧
     Go.TrimSpace "0\n" = Go.Sprint GitlabCloner.zero1.ID ∧
     GitlabCloner.fetchProjects
        (GitlabCloner.sampleEnv [GitlabCloner.zero1, GitlabCloner.zero2] ["0\n"])
        GitlabCloner.sampleConfig =
      [Event.httpGet "https://gitlab.example.com/api/v4/groups/42/projects?private_token=tok123",
       Event.stdout "Available Projects:\n", Event.stdout "one 0\n", Event.stdout "two 0\n",
       Event.stdout "Enter the project ID to clone: ", Event.readLine,
       Event.fatal "Invalid project selected"] ∧
     Event.run "git" ["clone", GitlabCloner.zero1.HTTPURLToRepo] ∉
       GitlabCloner.fetchProjects
         (GitlabCloner.sampleEnv [GitlabCloner.zero1, GitlabCloner.zero2] ["0\n"])
         GitlabCloner.sampleConfig) ∧
    (Subgroups.zero1.ID = Subgroups.zero2.ID ∧
     Go.TrimSpace "0\n" = Go.Sprint Subgroups.zero1.ID ∧
     Subgroups.fetchProjects
        (Subgroups.sampleEnv [Subgroups.zero1, Subgroups.zero2] ["0\n"])
        Subgroups.sampleConfig =
      [Event.httpGet ("https://gitlab.example.com/api/v4/groups/42/projects" ++
         "?include_subgroups=true&private_token=tok123&per_page=100"),
       Event.stdout "Available Projects:\n", Event.stdout "one 0 g / one\n",
       Event.stdout "two 0 g / two\n",
       Event.stdout "Enter the project ID to clone: ", Event.readLine,
       Event.fatal "Invalid project selected"] ∧
     Event.run "git" ["clone", Subgroups.zero1.HTTPURLToRepo] ∉
       Subgroups.fetchProjects
         (Subgroups.sampleEnv [Subgroups.zero1, Subgroups.zero2] ["0\n"])
         Subgroups.sampleConfig) := by
  refine ⟨⟨?_, ?_, ?_, ?_⟩, ⟨?_, ?_, ?_, ?_⟩⟩ <;> decide

/-- C10, amended: in both variants, for every decoded project list and every input whose
trimmed form is the decimal form of an identifier, shared by several projects or not, the
project the loop assigns is the first project of the displayed (sorted) order with that
identifier; every `git clone` of the run is of the `HTTPURLToRepo` of that first project, never
of a later one; and that clone is run provided the identifier is not 0, the value for which the
run ends in "Invalid project selected" without a clone. -/
theorem first_match_is_selected :
    (∀ (E : Env GitlabCloner.Project) (config : Config)
      (decoded l1 l2 : List GitlabCloner.Project) (p : GitlabCloner.Project),
      GitlabCloner.Responds E config decoded →
      E.sortSlice (GitlabCloner.less E) decoded = l1 ++ p :: l2 →
      (∀ q ∈ l1, q.ID ≠ p.ID) → Go.TrimSpace (E.stdin.headD "") = Go.Sprint p.ID →
      GitlabCloner.selectLoop (Go.TrimSpace (E.stdin.headD ""))
        (E.sortSlice (GitlabCloner.less E) decoded) GitlabCloner.Project.zero = p ∧
      (∀ name args, Event.run name args ∈ GitlabCloner.fetchProjects E config →
        name = "git" ∧ args = ["clone", p.HTTPURLToRepo]) ∧
      (p.ID ≠ 0 →
        Event.run "git" ["clone", p.HTTPURLToRepo] ∈ GitlabCloner.fetchProjects E config) ∧
      GitlabCloner.fetchProjects E config =
        Event.httpGet (GitlabCloner.fullURL config) :: Event.stdout "Available Projects:\n" ::
          ((E.sortSlice (GitlabCloner.less E) decoded).map GitlabCloner.listLine ++
            ([Event.stdout "Enter the project ID to clone: ", Event.readLine] ++
              (if p.ID = 0 then [Event.fatal "Invalid project selected"]
               else GitlabCloner.cloneStep E p)))) ∧
    (∀ (E : Env Subgroups.Project) (config : Config)
      (decoded l1 l2 : List Subgroups.Project) (p : Subgroups.Project),
      Subgroups.Responds E config decoded →
      E.sortSlice (Subgroups.less E) decoded = l1 ++ p :: l2 →
      (∀ q ∈ l1, q.ID ≠ p.ID) → Go.TrimSpace (E.stdin.headD "") = Go.Sprint p.ID →
      Subgroups.selectLoop (Go.TrimSpace (E.stdin.headD ""))
        (E.sortSlice (Subgroups.less E) decoded) Subgroups.Project.zero = p ∧
      (∀ name args, Event.run name args ∈ Subgroups.fetchProjects E config →
        name = "git" ∧ args = ["clone", p.HTTPURLToRepo]) ∧
      (p.ID ≠ 0 →
        Event.run "git" ["clone", p.HTTPURLToRepo] ∈ Subgroups.fetchProjects E config) ∧
      Subgroups.fetchProjects E config =
        Event.httpGet (Subgroups.fullURL config) :: Event.stdout "Available Projects:\n" ::
          ((E.sortSlice (Subgroups.less E) decoded).map (Subgroups.listLine E) ++
            ([Event.stdout "Enter the project ID to clone: ", Event.readLine] ++
              (if p.ID = 0 then [Event.fatal "Invalid project selected"]
               else Subgroups.cloneStep E p)))) := by
  constructor
  · intro E config decoded l1 l2 p hr hsplit hfirst hline
    have hsel : GitlabCloner.selectLoop (Go.TrimSpace (E.stdin.headD ""))
        (E.sortSlice (GitlabCloner.less E) decoded) GitlabCloner.Project.zero = p := by
      rw [hsplit]
      exact GitlabCloner.selectLoop_first _ l1 l2 p _
        (fun q hq hqs => hfirst q hq (Go.Sprint_injective _ _ (hqs.trans hline))) hline.symm
    have htrace : GitlabCloner.fetchProjects E config =
        Event.httpGet (GitlabCloner.fullURL config) :: Event.stdout "Available Projects:\n" ::
          ((E.sortSlice (GitlabCloner.less E) decoded).map GitlabCloner.listLine ++
            ([Event.stdout "Enter the project ID to clone: ", Event.readLine] ++
              (if p.ID = 0 then [Event.fatal "Invalid project selected"]
               else GitlabCloner.cloneStep E p))) := by
      rw [GitlabCloner.fetchProjects_eq E config decoded hr,
        GitlabCloner.listAndClone_eq E decoded _ hsel]
    refine ⟨hsel, ?_, ?_, htrace⟩
    · intro name args hmem
      rw [htrace] at hmem
      simp only [List.mem_cons, List.mem_append, List.mem_map, GitlabCloner.listLine,
        reduceCtorEq, and_false, exists_false, false_or, List.not_mem_nil, or_false] at hmem
      split_ifs at hmem with h0
      · simp at hmem
      · exact GitlabCloner.run_mem_cloneStep E p name args hmem
    · intro h0
      rw [htrace, if_neg h0]
      simp [GitlabCloner.cloneStep]
  · intro E config decoded l1 l2 p hr hsplit hfirst hline
    have hsel : Subgroups.selectLoop (Go.TrimSpace (E.stdin.headD ""))
        (E.sortSlice (Subgroups.less E) decoded) Subgroups.Project.zero = p := by
      rw [hsplit]
      exact Subgroups.selectLoop_first_sg _ l1 l2 p _
        (fun q hq hqs => hfirst q hq (Go.Sprint_injective _ _ (hqs.trans hline))) hline.symm
    have htrace : Subgroups.fetchProjects E config =
        Event.httpGet (Subgroups.fullURL config) :: Event.stdout "Available Projects:\n" ::
          ((E.sortSlice (Subgroups.less E) decoded).map (Subgroups.listLine E) ++
            ([Event.stdout "Enter the project ID to clone: ", Event.readLine] ++
              (if p.ID = 0 then [Event.fatal "Invalid project selected"]
               else Subgroups.cloneStep E p))) := by
      rw [Subgroups.fetchProjects_eq_sg E config decoded hr,
        Subgroups.listAndClone_eq_sg E decoded _ hsel]
    refine ⟨hsel, ?_, ?_, htrace⟩
    · intro name args hmem
      rw [htrace] at hmem
      simp only [List.mem_cons, List.mem_append, List.mem_map, Subgroups.listLine,
        reduceCtorEq, and_false, exists_false, false_or, List.not_mem_nil, or_false] at hmem
      split_ifs at hmem with h0
      · simp at hmem
      · exact Subgroups.run_mem_cloneStep_sg E p name args hmem
    · intro h0
      rw [htrace, if_neg h0]
      simp [Subgroups.cloneStep]

/-- Witness of C10, amended: beta and alpha share the identifier 2; alpha is displayed first and
is the one cloned, in both variants. -/
theorem first_match_is_selected_witness :
    (GitlabCloner.fetchProjects
        (GitlabCloner.sampleEnv [GitlabCloner.beta, GitlabCloner.zeta, GitlabCloner.alpha] ["2\n"])
        GitlabCloner.sampleConfig =
      [Event.httpGet "https://gitlab.example.com/api/v4/groups/42/projects?private_token=tok123",
       Event.stdout "Available Projects:\n", Event.stdout "alpha 2\n", Event.stdout "beta 2\n",
       Event.stdout "Zeta 1\n",
       Event.stdout "Enter the project ID to clone: ", Event.readLine,
       Event.stdout "Cloning project...\n", Event.stdout "Cloning alpha\n",
       Event.run "git" ["clone", "https://gitlab.example.com/g/alpha.git"],
       Event.stdout "Project cloned successfully.\n"]) ∧
    (Subgroups.selectLoop
        (Go.TrimSpace
          ((Subgroups.sampleEnv [Subgroups.beta, Subgroups.zeta, Subgroups.alpha]
            ["2\n"]).stdin.headD ""))
        ((Subgroups.sampleEnv [Subgroups.beta, Subgroups.zeta, Subgroups.alpha]
            ["2\n"]).sortSlice
          (Subgroups.less
            (Subgroups.sampleEnv [Subgroups.beta, Subgroups.zeta, Subgroups.alpha] ["2\n"]))
          [Subgroups.beta, Subgroups.zeta, Subgroups.alpha])
        Subgroups.Project.zero = Subgroups.alpha ∧
     Event.run "git" ["clone", "https://gitlab.example.com/g/alpha.git"] ∈
       Subgroups.fetchProjects
         (Subgroups.sampleEnv [Subgroups.beta, Subgroups.zeta, Subgroups.alpha] ["2\n"])
         Subgroups.sampleConfig) :=
  ⟨(first_match_is_selected.1
      (GitlabCloner.sampleEnv [GitlabCloner.beta, GitlabCloner.zeta, GitlabCloner.alpha] ["2\n"])
      GitlabCloner.sampleConfig [GitlabCloner.beta, GitlabCloner.zeta, GitlabCloner.alpha]
      [] [GitlabCloner.beta, GitlabCloner.zeta] GitlabCloner.alpha
      ⟨"[]", rfl, rfl⟩ (by decide) (by decide) (by decide)).2.2.2,
   ⟨(first_match_is_selected.2
      (Subgroups.sampleEnv [Subgroups.beta, Subgroups.zeta, Subgroups.alpha] ["2\n"])
      Subgroups.sampleConfig [Subgroups.beta, Subgroups.zeta, Subgroups.alpha]
      [] [Subgroups.beta, Subgroups.zeta] Subgroups.alpha
      ⟨"[]", rfl, rfl⟩ (by decide) (by decide) (by decide)).1,
    (first_match_is_selected.2
      (Subgroups.sampleEnv [Subgroups.beta, Subgroups.zeta, Subgroups.alpha] ["2\n"])
      Subgroups.sampleConfig [Subgroups.beta, Subgroups.zeta, Subgroups.alpha]
      [] [Subgroups.beta, Subgroups.zeta] Subgroups.alpha
      ⟨"[]", rfl, rfl⟩ (by decide) (by decide) (by decide)).2.2.1 (by decide)⟩⟩

/-! ## The request -/

theorem GitlabCloner.cloneStep_no_get (E : Env GitlabCloner.Project) (p : GitlabCloner.Project) :
    (GitlabCloner.cloneStep E p).filter Event.isHttpGet = [] := by
  simp only [GitlabCloner.cloneStep]
  generalize E.run "git" ["clone", p.HTTPURLToRepo] = r
  cases r <;> rfl

theorem GitlabCloner.listAndClone_no_get (E : Env GitlabCloner.Project)
    (decoded : List GitlabCloner.Project) :
    (GitlabCloner.listAndClone E decoded).filter Event.isHttpGet = [] := by
  rw [GitlabCloner.listAndClone_eq E decoded _ rfl]
  have hl : ∀ l : List GitlabCloner.Project,
      (l.map GitlabCloner.listLine).filter Event.isHttpGet = [] := by
    intro l
    induction l with
    | nil => rfl
    | cons a l ih => simp [GitlabCloner.listLine, Event.isHttpGet]
  rw [List.filter_cons, List.filter_append, List.filter_append, hl]
  split_ifs with h1 h2
  · simp [Event.isHttpGet] at h1
  · rfl
  · simpa [Event.isHttpGet] using GitlabCloner.cloneStep_no_get E _

theorem Subgroups.cloneStep_no_get_sg (E : Env Subgroups.Project) (p : Subgroups.Project) :
    (Subgroups.cloneStep E p).filter Event.isHttpGet = [] := by
  simp only [Subgroups.cloneStep]
  generalize E.run "git" ["clone", p.HTTPURLToRepo] = r
  cases r <;> rfl

theorem Subgroups.listAndClone_no_get_sg (E : Env Subgroups.Project)
    (decoded : List Subgroups.Project) :
    (Subgroups.listAndClone E decoded).filter Event.isHttpGet = [] := by
  rw [Subgroups.listAndClone_eq_sg E decoded _ rfl]
  have hl : ∀ l : List Subgroups.Project,
      (l.map (Subgroups.listLine E)).filter Event.isHttpGet = [] := by
    intro l
    induction l with
    | nil => rfl
    | cons a l ih => simp [Subgroups.listLine, Event.isHttpGet]
  rw [List.filter_cons, List.filter_append, List.filter_append, hl]
  split_ifs with h1 h2
  · simp [Event.isHttpGet] at h1
  · rfl
  · simpa [Event.isHttpGet] using Subgroups.cloneStep_no_get_sg E _

/-- C7: in the simple variant, for every configuration (and whatever the environment answers)
the run issues exactly one GET, and it is to `GitLabURL ++ "api/v4/groups/" ++ GroupID ++
"/projects?private_token=" ++ AccessToken`, nothing inserted.  With `https://gitlab.example.com/`,
`42`, `tok123` this is
`https://gitlab.example.com/api/v4/groups/42/projects?private_token=tok123`. -/
theorem simple_request_url :
    (∀ (E : Env GitlabCloner.Project) (config : Config),
      (GitlabCloner.fetchProjects E config).filter Event.isHttpGet =
        [Event.httpGet (config.GitLabURL ++ "api/v4/groups/" ++ config.GroupID ++
          "/projects?private_token=" ++ config.AccessToken)] ∧
      (GitlabCloner.fetchProjects E config).head? =
        some (Event.httpGet (config.GitLabURL ++ "api/v4/groups/" ++ config.GroupID ++
          "/projects?private_token=" ++ config.AccessToken))) ∧
    GitlabCloner.fullURL ⟨"https://gitlab.example.com/", "42", "tok123"⟩ =
      "https://gitlab.example.com/api/v4/groups/42/projects?private_token=tok123" := by
  refine ⟨?_, by decide⟩
  intro E config
  refine ⟨?_, rfl⟩
  unfold GitlabCloner.fetchProjects
  simp only [List.filter_cons, Event.isHttpGet, if_true]
  have hurl : GitlabCloner.fullURL config = config.GitLabURL ++ "api/v4/groups/" ++
      config.GroupID ++ "/projects?private_token=" ++ config.AccessToken := rfl
  rw [hurl]
  congr 1
  split
  · rfl
  · rfl
  · split
    · rfl
    · exact GitlabCloner.listAndClone_no_get E _

/-- C6 fails as stated: the request of the subgroup variant is not the URL of the simple variant
with `&include_subgroups=true&per_page=100` appended; `include_subgroups=true` comes before
`private_token`. -/
theorem subgroup_request_url_is_not_suffixed :
    (Subgroups.fetchProjects (Subgroups.sampleEnv [] []) ⟨"https://gitlab.example.com/", "42",
        "tok123"⟩).head? =
      some (Event.httpGet ("https://gitlab.example.com/api/v4/groups/42/projects" ++
        "?include_subgroups=true&private_token=tok123&per_page=100")) ∧
    (Subgroups.fetchProjects (Subgroups.sampleEnv [] []) ⟨"https://gitlab.example.com/", "42",
        "tok123"⟩).head? ≠
      some (Event.httpGet ("https://gitlab.example.com/" ++ "api/v4/groups/" ++ "42" ++
        "/projects?private_token=" ++ "tok123" ++ "&include_subgroups=true&per_page=100")) ∧
    Subgroups.fullURL ⟨"https://gitlab.example.com/", "42", "tok123"⟩ ≠
      GitlabCloner.fullURL ⟨"https://gitlab.example.com/", "42", "tok123"⟩ ++
        "&include_subgroups=true&per_page=100" := by
  refine ⟨?_, ?_, ?_⟩ <;> decide

/-- C6, amended: in the subgroup variant, for every configuration the run issues exactly one
GET, and it is to `GitLabURL ++ "api/v4/groups/" ++ GroupID ++
"/projects?include_subgroups=true&private_token=" ++ AccessToken ++ "&per_page=100"`: the same
path and the same three query parameters, with `include_subgroups=true` first. -/
theorem subgroup_request_url (E : Env Subgroups.Project) (config : Config) :
    (Subgroups.fetchProjects E config).filter Event.isHttpGet =
      [Event.httpGet (config.GitLabURL ++ "api/v4/groups/" ++ config.GroupID ++
        "/projects?include_subgroups=true&private_token=" ++ config.AccessToken ++
        "&per_page=100")] ∧
    (Subgroups.fetchProjects E config).head? =
      some (Event.httpGet (config.GitLabURL ++ "api/v4/groups/" ++ config.GroupID ++
        "/projects?include_subgroups=true&private_token=" ++ config.AccessToken ++
        "&per_page=100")) := by
  refine ⟨?_, rfl⟩
  unfold Subgroups.fetchProjects
  simp only [List.filter_cons, Event.isHttpGet, if_true]
  have hurl : Subgroups.fullURL config = config.GitLabURL ++ "api/v4/groups/" ++
      config.GroupID ++ "/projects?include_subgroups=true&private_token=" ++
      config.AccessToken ++ "&per_page=100" := rfl
  rw [hurl]
  congr 1
  split
  · rfl
  · rfl
  · split
    · rfl
    · exact Subgroups.listAndClone_no_get_sg E _

/-! ## The platform tag -/

theorem Go.startsWith_iff (s p : List Char) : Go.startsWith s p = true ↔ p <+: s := by
  induction s generalizing p with
  | nil => cases p <;> simp [Go.startsWith]
  | cons c s ih =>
    cases p with
    | nil => simp [Go.startsWith]
    | cons d p =>
      simp only [Go.startsWith, Bool.and_eq_true, beq_iff_eq, ih, List.cons_prefix_cons]
      constructor
      · rintro ⟨h1, h2⟩
        exact ⟨h1.symm, h2⟩
      · rintro ⟨h1, h2⟩
        exact ⟨h1.symm, h2⟩

theorem Go.containsChars_iff (s sub : List Char) : Go.containsChars s sub = true ↔ sub <:+: s := by
  induction s with
  | nil => simp [Go.containsChars, Go.startsWith_iff]
  | cons c s ih =>
    simp only [Go.containsChars, Bool.or_eq_true, Go.startsWith_iff, ih, List.infix_cons_iff]

/-- C5: in the subgroup variant the tag printed for a project with namespaced name `n` is
`android` if the lower-cased `n` contains `android`, otherwise `ios` if it contains `ios`,
otherwise `n` unchanged; a name with both substrings, in any letter case, yields `android`; and
the tag so derived is the last field of the line printed for the project. -/
theorem platform_tag_derivation (E : Env Subgroups.Project) :
    (∀ project : Subgroups.Project, Subgroups.projectType E project =
      platformTag (Go.ToLower E.unicodeToLower) project.NameWithNamespace) ∧
    (∀ project : Subgroups.Project,
      "android".data <:+: (Go.ToLower E.unicodeToLower project.NameWithNamespace).data →
      "ios".data <:+: (Go.ToLower E.unicodeToLower project.NameWithNamespace).data →
      Subgroups.projectType E project = "android") ∧
    (∀ (config : Config) (decoded : List Subgroups.Project),
      Subgroups.Responds E config decoded →
      ∃ rest, Subgroups.fetchProjects E config =
        Event.httpGet (Subgroups.fullURL config) :: Event.stdout "Available Projects:\n" ::
          ((E.sortSlice (Subgroups.less E) decoded).map (fun project =>
              Event.stdout (project.Name ++ " " ++ E.yellowString (Go.Sprint project.ID) ++ " " ++
                platformTag (Go.ToLower E.unicodeToLower) project.NameWithNamespace ++ "\n")) ++
            rest)) := by
  have htag : ∀ project : Subgroups.Project, Subgroups.projectType E project =
      platformTag (Go.ToLower E.unicodeToLower) project.NameWithNamespace := by
    intro project
    simp only [Subgroups.projectType, platformTag, Go.Contains, Go.containsChars_iff]
  refine ⟨htag, ?_, ?_⟩
  · intro project h1 _
    rw [htag, platformTag, if_pos h1]
  · intro config decoded hr
    have hline : (fun project : Subgroups.Project =>
        Event.stdout (project.Name ++ " " ++ E.yellowString (Go.Sprint project.ID) ++ " " ++
          platformTag (Go.ToLower E.unicodeToLower) project.NameWithNamespace ++ "\n")) =
        Subgroups.listLine E := by
      funext project
      simp only [Subgroups.listLine, htag]
    rw [hline, Subgroups.fetchProjects_eq_sg E config decoded hr,
      Subgroups.listAndClone_eq_sg E decoded _ rfl]
    exact ⟨_, rfl⟩

/-- Witness of C5: an Android project, an iOS project, one with both substrings and one with
neither. -/
theorem platform_tag_derivation_witness :
    Subgroups.projectType (Subgroups.sampleEnv [] []) Subgroups.bridge = "android" ∧
    ∃ rest, Subgroups.fetchProjects
        (Subgroups.sampleEnv [Subgroups.droid, Subgroups.phone, Subgroups.bridge, Subgroups.zeta]
          ["9\n"]) Subgroups.sampleConfig =
      Event.httpGet (Subgroups.fullURL Subgroups.sampleConfig) ::
        Event.stdout "Available Projects:\n" ::
        ([Event.stdout "bridge 9 android\n", Event.stdout "shop 7 android\n",
          Event.stdout "Shop 8 ios\n", Event.stdout "Zeta 1 g / Zeta\n"] ++ rest) :=
  ⟨(platform_tag_derivation (Subgroups.sampleEnv [] [])).2.1 Subgroups.bridge
      (by decide) (by decide),
   (platform_tag_derivation
      (Subgroups.sampleEnv [Subgroups.droid, Subgroups.phone, Subgroups.bridge, Subgroups.zeta]
        ["9\n"])).2.2 Subgroups.sampleConfig
      [Subgroups.droid, Subgroups.phone, Subgroups.bridge, Subgroups.zeta] ⟨"[]", rfl, rfl⟩⟩

/-! ## The displayed order -/

/-- A rearrangement of two different elements that does not put the second after the first puts
it first. -/
theorem sorted_pair {α : Type} (less : α → α → Bool) (z a : α) (r : List α)
    (hperm : r.Perm [z, a]) (hsorted : r.Pairwise (fun x y => less y x = false))
    (hne : z ≠ a) (hlt : less a z = true) : r = [a, z] := by
  have hlen := hperm.length_eq
  match r, hlen with
  | [x, y], _ =>
    have hz : z ∈ [x, y] := hperm.mem_iff.2 (by simp)
    have ha : a ∈ [x, y] := hperm.mem_iff.2 (by simp)
    have hxy : x ≠ y := by
      have hnd : [z, a].Nodup := by simp [hne]
      have := hperm.nodup_iff.2 hnd
      simpa using this
    have hs : less y x = false := by simpa using hsorted
    simp only [List.mem_cons, List.mem_singleton, List.not_mem_nil, or_false] at hz ha
    rcases hz with hz | hz <;> rcases ha with ha | ha
    · exact absurd (hz.trans ha.symm) hne
    · subst hz ha
      rw [hlt] at hs
      cases hs
    · subst hz ha
      rfl
    · exact absurd (hz.trans ha.symm) hne

/-- C3: in both variants, for every decoded project list the projects are printed in an order
that is non-decreasing in the lower-cased names: the printed lines are those of a rearrangement
of the decoded list in which no project is directly followed (nor followed at all) by one whose
lower-cased name is smaller.  Decoded Zeta (1), alpha (2) is printed as alpha (2), Zeta (1). -/
theorem display_order_sorted :
    (∀ (E : Env GitlabCloner.Project) (config : Config) (decoded : List GitlabCloner.Project),
      SortSliceSpec E.sortSlice → GitlabCloner.Responds E config decoded →
      (∃ rest, GitlabCloner.fetchProjects E config =
        Event.httpGet (GitlabCloner.fullURL config) :: Event.stdout "Available Projects:\n" ::
          ((E.sortSlice (GitlabCloner.less E) decoded).map GitlabCloner.listLine ++
            Event.stdout "Enter the project ID to clone: " :: rest)) ∧
      (E.sortSlice (GitlabCloner.less E) decoded).Perm decoded ∧
      (E.sortSlice (GitlabCloner.less E) decoded).Chain' (fun p q =>
        Go.stringLess (Go.ToLower E.unicodeToLower q.Name)
          (Go.ToLower E.unicodeToLower p.Name) = false) ∧
      (E.sortSlice (GitlabCloner.less E) decoded).Pairwise (fun p q =>
        Go.stringLess (Go.ToLower E.unicodeToLower q.Name)
          (Go.ToLower E.unicodeToLower p.Name) = false)) ∧
    (∀ (E : Env Subgroups.Project) (config : Config) (decoded : List Subgroups.Project),
      SortSliceSpec E.sortSlice → Subgroups.Responds E config decoded →
      (∃ rest, Subgroups.fetchProjects E config =
        Event.httpGet (Subgroups.fullURL config) :: Event.stdout "Available Projects:\n" ::
          ((E.sortSlice (Subgroups.less E) decoded).map (Subgroups.listLine E) ++
            Event.stdout "Enter the project ID to clone: " :: rest)) ∧
      (E.sortSlice (Subgroups.less E) decoded).Perm decoded ∧
      (E.sortSlice (Subgroups.less E) decoded).Chain' (fun p q =>
        Go.stringLess (Go.ToLower E.unicodeToLower q.Name)
          (Go.ToLower E.unicodeToLower p.Name) = false) ∧
      (E.sortSlice (Subgroups.less E) decoded).Pairwise (fun p q =>
        Go.stringLess (Go.ToLower E.unicodeToLower q.Name)
          (Go.ToLower E.unicodeToLower p.Name) = false)) ∧
    (∀ (E : Env GitlabCloner.Project) (ns1 ns2 : GitlabCloner.Namespace) (url1 url2 : String),
      SortSliceSpec E.sortSlice →
      E.sortSlice (GitlabCloner.less E) [⟨1, "Zeta", ns1, url1⟩, ⟨2, "alpha", ns2, url2⟩] =
        [⟨2, "alpha", ns2, url2⟩, ⟨1, "Zeta", ns1, url1⟩]) ∧
    (∀ (E : Env Subgroups.Project) (ns1 ns2 : Subgroups.Namespace) (url1 url2 nn1 nn2 : String)
      (c1 c2 : Int), SortSliceSpec E.sortSlice →
      E.sortSlice (Subgroups.less E)
          [⟨1, "Zeta", ns1, url1, c1, nn1⟩, ⟨2, "alpha", ns2, url2, c2, nn2⟩] =
        [⟨2, "alpha", ns2, url2, c2, nn2⟩, ⟨1, "Zeta", ns1, url1, c1, nn1⟩]) := by
  refine ⟨?_, ?_, ?_, ?_⟩
  · intro E config decoded hs hr
    have hp := hs.sorted (GitlabCloner.less E) decoded (GitlabCloner.less_strictWeakOrder E)
    refine ⟨?_, hs.perm _ _, List.Pairwise.chain' hp, hp⟩
    rw [GitlabCloner.fetchProjects_eq E config decoded hr,
      GitlabCloner.listAndClone_eq E decoded _ rfl]
    exact ⟨_, rfl⟩
  · intro E config decoded hs hr
    have hp := hs.sorted (Subgroups.less E) decoded (Subgroups.less_strictWeakOrder_sg E)
    refine ⟨?_, hs.perm _ _, List.Pairwise.chain' hp, hp⟩
    rw [Subgroups.fetchProjects_eq_sg E config decoded hr,
      Subgroups.listAndClone_eq_sg E decoded _ rfl]
    exact ⟨_, rfl⟩
  · intro E ns1 ns2 url1 url2 hs
    exact sorted_pair (GitlabCloner.less E) _ _ _ (hs.perm _ _)
      (hs.sorted _ _ (GitlabCloner.less_strictWeakOrder E))
      (by intro h; injection h with h1; exact absurd h1 (by decide)) rfl
  · intro E ns1 ns2 url1 url2 nn1 nn2 c1 c2 hs
    exact sorted_pair (Subgroups.less E) _ _ _ (hs.perm _ _)
      (hs.sorted _ _ (Subgroups.less_strictWeakOrder_sg E))
      (by intro h; injection h with h1; exact absurd h1 (by decide)) rfl

/-- Witness of C3: the end-to-end scenario, decoded Zeta (1) then alpha (2). -/
theorem display_order_sorted_witness :
    (∃ rest, GitlabCloner.fetchProjects
        (GitlabCloner.sampleEnv [GitlabCloner.zeta, GitlabCloner.alpha] ["1\n"])
        GitlabCloner.sampleConfig =
      Event.httpGet (GitlabCloner.fullURL GitlabCloner.sampleConfig) ::
        Event.stdout "Available Projects:\n" ::
        ([Event.stdout "alpha 2\n", Event.stdout "Zeta 1\n"] ++
          Event.stdout "Enter the project ID to clone: " :: rest)) ∧
    (∃ rest, Subgroups.fetchProjects
        (Subgroups.sampleEnv [Subgroups.zeta, Subgroups.alpha] ["1\n"])
        Subgroups.sampleConfig =
      Event.httpGet (Subgroups.fullURL Subgroups.sampleConfig) ::
        Event.stdout "Available Projects:\n" ::
        ([Event.stdout "alpha 2 g / alpha\n", Event.stdout "Zeta 1 g / Zeta\n"] ++
          Event.stdout "Enter the project ID to clone: " :: rest)) :=
  ⟨(display_order_sorted.1
      (GitlabCloner.sampleEnv [GitlabCloner.zeta, GitlabCloner.alpha] ["1\n"])
      GitlabCloner.sampleConfig [GitlabCloner.zeta, GitlabCloner.alpha]
      insertionSortSlice_spec ⟨"[]", rfl, rfl⟩).1,
   (display_order_sorted.2.1
      (Subgroups.sampleEnv [Subgroups.zeta, Subgroups.alpha] ["1\n"])
      Subgroups.sampleConfig [Subgroups.zeta, Subgroups.alpha]
      insertionSortSlice_spec ⟨"[]", rfl, rfl⟩).1⟩

/-! ## Configuration -/

theorem GitlabCloner.fetchProjects_no_write (E : Env GitlabCloner.Project) (config : Config)
    (path data : String) (perm : Nat) :
    Event.writeFile path data perm ∉ GitlabCloner.fetchProjects E config := by
  unfold GitlabCloner.fetchProjects
  have hclone : ∀ p, Event.writeFile path data perm ∉ GitlabCloner.cloneStep E p := by
    intro p
    simp only [GitlabCloner.cloneStep]
    generalize E.run "git" ["clone", p.HTTPURLToRepo] = r
    cases r <;> simp
  have hlist : ∀ decoded, Event.writeFile path data perm ∉ GitlabCloner.listAndClone E decoded := by
    intro decoded
    rw [GitlabCloner.listAndClone_eq E decoded _ rfl]
    simp only [List.mem_cons, List.mem_append, List.mem_map, GitlabCloner.listLine]
    split_ifs with h1
    · simp
    · simpa using hclone _
  intro hmem
  rcases List.mem_cons.1 hmem with h | h
  · cases h
  · revert h
    split
    · simp
    · simp
    · split
      · simp
      · exact hlist _

theorem Subgroups.fetchProjects_no_write_sg (E : Env Subgroups.Project) (config : Config)
    (path data : String) (perm : Nat) :
    Event.writeFile path data perm ∉ Subgroups.fetchProjects E config := by
  unfold Subgroups.fetchProjects
  have hclone : ∀ p, Event.writeFile path data perm ∉ Subgroups.cloneStep E p := by
    intro p
    simp only [Subgroups.cloneStep]
    generalize E.run "git" ["clone", p.HTTPURLToRepo] = r
    cases r <;> simp
  have hlist : ∀ decoded, Event.writeFile path data perm ∉ Subgroups.listAndClone E decoded := by
    intro decoded
    rw [Subgroups.listAndClone_eq_sg E decoded _ rfl]
    simp only [List.mem_cons, List.mem_append, List.mem_map, Subgroups.listLine]
    split_ifs with h1
    · simp
    · simpa using hclone _
  intro hmem
  rcases List.mem_cons.1 hmem with h | h
  · cases h
  · revert h
    split
    · simp
    · simp
    · split
      · simp
      · exact hlist _

theorem mainWith_configured {P : Type} (fetch : Env P → Config → List Event) (E : Env P)
    (data : String) (cfg : Config)
    (hexists : fileExists E (E.pathJoin E.home "config.json") = true)
    (hread : E.readFile (E.pathJoin E.home "config.json") = .ok data)
    (hdecode : Go.JSON.unmarshalConfig data ⟨"", "", ""⟩ = .ok cfg)
    (h1 : cfg.GitLabURL ≠ "") (h2 : cfg.GroupID ≠ "") (h3 : cfg.AccessToken ≠ "") :
    mainWith fetch E = Event.readFile (E.pathJoin E.home "config.json") :: fetch E cfg := by
  unfold mainWith
  simp [hexists, hread, hdecode, h1, h2, h3]

/-- C8: in both variants, for every configuration file that exists, is read and decodes to a
`Config` with three non-empty fields, `main` performs nothing but the read of the file before
it calls `fetchProjects` with exactly the decoded configuration, on the untouched standard
input: no prompt line is read by `main`, and the file is never written. -/
theorem configured_run_skips_prompts :
    (∀ (E : Env GitlabCloner.Project) (data : String) (cfg : Config),
      fileExists E (E.pathJoin E.home "config.json") = true →
      E.readFile (E.pathJoin E.home "config.json") = .ok data →
      Go.JSON.unmarshalConfig data ⟨"", "", ""⟩ = .ok cfg →
      cfg.GitLabURL ≠ "" → cfg.GroupID ≠ "" → cfg.AccessToken ≠ "" →
      GitlabCloner.main E =
        Event.readFile (E.pathJoin E.home "config.json") :: GitlabCloner.fetchProjects E cfg ∧
      ∀ path written perm, Event.writeFile path written perm ∉ GitlabCloner.main E) ∧
    (∀ (E : Env Subgroups.Project) (data : String) (cfg : Config),
      fileExists E (E.pathJoin E.home "config.json") = true →
      E.readFile (E.pathJoin E.home "config.json") = .ok data →
      Go.JSON.unmarshalConfig data ⟨"", "", ""⟩ = .ok cfg →
      cfg.GitLabURL ≠ "" → cfg.GroupID ≠ "" → cfg.AccessToken ≠ "" →
      Subgroups.main E =
        Event.readFile (E.pathJoin E.home "config.json") :: Subgroups.fetchProjects E cfg ∧
      ∀ path written perm, Event.writeFile path written perm ∉ Subgroups.main E) := by
  constructor
  · intro E data cfg hexists hread hdecode h1 h2 h3
    have hmain := mainWith_configured GitlabCloner.fetchProjects E data cfg hexists hread hdecode
      h1 h2 h3
    refine ⟨hmain, ?_⟩
    intro path written perm hmem
    unfold GitlabCloner.main at hmem
    rw [hmain] at hmem
    rcases List.mem_cons.1 hmem with h | h
    · cases h
    · exact GitlabCloner.fetchProjects_no_write E cfg path written perm h
  · intro E data cfg hexists hread hdecode h1 h2 h3
    have hmain := mainWith_configured Subgroups.fetchProjects E data cfg hexists hread hdecode
      h1 h2 h3
    refine ⟨hmain, ?_⟩
    intro path written perm hmem
    unfold Subgroups.main at hmem
    rw [hmain] at hmem
    rcases List.mem_cons.1 hmem with h | h
    · cases h
    · exact Subgroups.fetchProjects_no_write_sg E cfg path written perm h

/-- Witness of C8: with the configuration file in place the whole run is the read of the file,
the request, the listing and the selection. -/
theorem configured_run_skips_prompts_witness :
    (GitlabCloner.main (GitlabCloner.configuredEnv [GitlabCloner.zeta] ["1\n"]) =
      [Event.readFile "/home/dev/config.json",
       Event.httpGet "https://gitlab.example.com/api/v4/groups/42/projects?private_token=tok123",
       Event.stdout "Available Projects:\n", Event.stdout "Zeta 1\n",
       Event.stdout "Enter the project ID to clone: ", Event.readLine,
       Event.stdout "Cloning project...\n", Event.stdout "Cloning Zeta\n",
       Event.run "git" ["clone", "https://gitlab.example.com/g/zeta.git"],
       Event.stdout "Project cloned successfully.\n"]) ∧
    (Subgroups.main (Subgroups.configuredEnv [Subgroups.zeta] ["1\n"]) =
      Event.readFile "/home/dev/config.json" ::
        Subgroups.fetchProjects (Subgroups.configuredEnv [Subgroups.zeta] ["1\n"])
          ⟨"https://gitlab.example.com/", "42", "tok123"⟩) :=
  ⟨(configured_run_skips_prompts.1 (GitlabCloner.configuredEnv [GitlabCloner.zeta] ["1\n"])
      sampleFile ⟨"https://gitlab.example.com/", "42", "tok123"⟩
      rfl rfl rfl (by decide) (by decide) (by decide)).1,
   (configured_run_skips_prompts.2 (Subgroups.configuredEnv [Subgroups.zeta] ["1\n"])
      sampleFile ⟨"https://gitlab.example.com/", "42", "tok123"⟩
      rfl rfl rfl (by decide) (by decide) (by decide)).1⟩

/-! ## The JSON round trip of a configuration -/

namespace Go.JSON

theorem char_eq_of_toNat (c : Char) (n : Nat) (h : c.toNat = n) : c = Char.ofNat n := by
  subst h
  exact (Char.ofNat_toNat c).symm

theorem hexVal_hexDigit (d : Nat) (h : d < 16) : hexVal (hexDigit d) = some d := by
  interval_cases d <;> rfl

theorem unquote_simple (f : Nat) (e ch : Char) (rest : List Char)
    (h : simpleEscape e = some ch) (hu : e.toNat ≠ 117) :
    unquote (f + 1) (Char.ofNat 92 :: e :: rest) = consChar ch (unquote f rest) := by
  have h92 : (Char.ofNat 92).toNat = 92 := rfl
  simp only [unquote, h92, if_neg hu, h]
  simp

theorem unquote_hex (f rr : Nat) (a b c d : Char) (rest : List Char)
    (h : hex4 a b c d = some rr) (hs : ¬(0xD800 ≤ rr ∧ rr < 0xE000)) :
    unquote (f + 1) (Char.ofNat 92 :: Char.ofNat 117 :: a :: b :: c :: d :: rest) =
      consChar (Char.ofNat rr) (unquote f rest) := by
  have h92 : (Char.ofNat 92).toNat = 92 := rfl
  have h117 : (Char.ofNat 117).toNat = 117 := rfl
  simp only [unquote, h92, h117, h, if_neg hs]
  simp

theorem unquote_plain (f : Nat) (c : Char) (rest : List Char)
    (h1 : c.toNat ≠ 34) (h2 : c.toNat ≠ 92) (h3 : ¬c.toNat < 32) :
    unquote (f + 1) (c :: rest) = consChar c (unquote f rest) := by
  simp only [unquote, if_neg h1, if_neg h2, if_neg h3]

theorem unquote_escapeChar (f : Nat) (c : Char) (rest : List Char) :
    unquote (f + 1) (escapeChar c ++ rest) = consChar c (unquote f rest) := by
  unfold escapeChar
  simp only []
  split_ifs with h1 h2 h3 h4 h5 h6 h7 h8
  · rcases h1 with h | h
    · have hc := char_eq_of_toNat c 34 h
      subst hc
      exact unquote_simple f _ _ rest rfl (by decide)
    · have hc := char_eq_of_toNat c 92 h
      subst hc
      exact unquote_simple f _ _ rest rfl (by decide)
  · have hc := char_eq_of_toNat c 8 h2
    subst hc
    exact unquote_simple f _ _ rest rfl (by decide)
  · have hc := char_eq_of_toNat c 12 h3
    subst hc
    exact unquote_simple f _ _ rest rfl (by decide)
  · have hc := char_eq_of_toNat c 10 h4
    subst hc
    exact unquote_simple f _ _ rest rfl (by decide)
  · have hc := char_eq_of_toNat c 13 h5
    subst hc
    exact unquote_simple f _ _ rest rfl (by decide)
  · have hc := char_eq_of_toNat c 9 h6
    subst hc
    exact unquote_simple f _ _ rest rfl (by decide)
  · have hlt : c.toNat < 256 := by omega
    have hx : hex4 (Char.ofNat 48) (Char.ofNat 48) (hexDigit (c.toNat / 16))
        (hexDigit (c.toNat % 16)) = some c.toNat := by
      have e1 : hexVal (Char.ofNat 48) = some 0 := rfl
      simp only [hex4, e1, hexVal_hexDigit (c.toNat / 16) (by omega),
        hexVal_hexDigit (c.toNat % 16) (by omega)]
      congr 1
      omega
    have := unquote_hex f c.toNat _ _ _ _ rest hx (by omega)
    rw [Char.ofNat_toNat] at this
    exact this
  · have hx : hex4 (Char.ofNat 50) (Char.ofNat 48) (Char.ofNat 50)
        (hexDigit (c.toNat % 16)) = some c.toNat := by
      have e1 : hexVal (Char.ofNat 48) = some 0 := rfl
      have e2 : hexVal (Char.ofNat 50) = some 2 := rfl
      simp only [hex4, e1, e2, hexVal_hexDigit (c.toNat % 16) (by omega)]
      congr 1
      omega
    have := unquote_hex f c.toNat _ _ _ _ rest hx (by omega)
    rw [Char.ofNat_toNat] at this
    exact this
  · exact unquote_plain f c rest (by omega) (by omega) (by omega)

theorem unquote_escape (s rest : List Char) (fuel : Nat) (h : s.length < fuel) :
    unquote fuel (s.flatMap escapeChar ++ Char.ofNat 34 :: rest) = some (s, rest) := by
  induction s generalizing fuel with
  | nil =>
    obtain ⟨f, rfl⟩ : ∃ f, fuel = f + 1 := ⟨fuel - 1, by omega⟩
    have h34 : (Char.ofNat 34).toNat = 34 := rfl
    simp [unquote, h34]
  | cons c s ih =>
    obtain ⟨f, rfl⟩ : ∃ f, fuel = f + 1 := ⟨fuel - 1, by omega⟩
    have hf : s.length < f := by simpa using h
    rw [List.flatMap_cons, List.append_assoc, unquote_escapeChar, ih f hf]
    rfl

theorem length_le_flatMap_escapeChar (s : List Char) :
    s.length ≤ (s.flatMap escapeChar).length := by
  induction s with
  | nil => simp
  | cons c s ih =>
    have hpos : 0 < (escapeChar c).length := by
      unfold escapeChar
      simp only []
      split_ifs <;> simp
    simp only [List.flatMap_cons, List.length_append, List.length_cons]
    omega

theorem unquote_quoted (s rest : List Char) :
    unquote ((s.flatMap escapeChar ++ Char.ofNat 34 :: rest).length + 1)
      (s.flatMap escapeChar ++ Char.ofNat 34 :: rest) = some (s, rest) := by
  apply unquote_escape
  have := length_le_flatMap_escapeChar s
  simp only [List.length_append, List.length_cons]
  omega

theorem parseValue_quoted (f depth : Nat) (s rest : List Char) :
    parseValue (f + 1) depth (quoted s rest) = some (Value.string s, rest) := by
  have h34 : (Char.ofNat 34).toNat = 34 := rfl
  unfold quoted
  simp only [parseValue, h34, unquote_quoted]
  simp

theorem parseMembers_comma (f depth : Nat) (key v rest : List Char) :
    parseMembers (f + 2) depth
        (quoted key (Char.ofNat 58 :: quoted v (Char.ofNat 44 :: rest))) =
      match parseMembers (f + 1) depth (skipWS rest) with
      | none => none
      | some (ms, r) => some ((key, Value.string v) :: ms, r) := by
  have h34 : (Char.ofNat 34).toNat = 34 := rfl
  have h58 : (Char.ofNat 58).toNat = 58 := rfl
  have h44 : (Char.ofNat 44).toNat = 44 := rfl
  have hq : ∀ r, skipWS (Char.ofNat 34 :: r) = Char.ofNat 34 :: r := fun r => rfl
  have hv := fun r => parseValue_quoted f depth v r
  unfold quoted at hv
  have hc : ∀ r, skipWS (Char.ofNat 58 :: r) = Char.ofNat 58 :: r := fun r => rfl
  have hm : ∀ r, skipWS (Char.ofNat 44 :: r) = Char.ofNat 44 :: r := fun r => rfl
  conv => lhs; unfold quoted
  simp only [parseMembers, h34, unquote_quoted, hc, h58, hq, hv, hm, h44]
  simp

theorem parseMembers_last (f depth : Nat) (key v rest : List Char) :
    parseMembers (f + 2) depth
        (quoted key (Char.ofNat 58 :: quoted v (Char.ofNat 125 :: rest))) =
      some ([(key, Value.string v)], rest) := by
  have h34 : (Char.ofNat 34).toNat = 34 := rfl
  have h58 : (Char.ofNat 58).toNat = 58 := rfl
  have h125 : (Char.ofNat 125).toNat = 125 := rfl
  have hq : ∀ r, skipWS (Char.ofNat 34 :: r) = Char.ofNat 34 :: r := fun r => rfl
  have hv := fun r => parseValue_quoted f depth v r
  unfold quoted at hv
  have hc : ∀ r, skipWS (Char.ofNat 58 :: r) = Char.ofNat 58 :: r := fun r => rfl
  have hm : ∀ r, skipWS (Char.ofNat 125 :: r) = Char.ofNat 125 :: r := fun r => rfl
  conv => lhs; unfold quoted
  simp only [parseMembers, h34, unquote_quoted, hc, h58, hq, hv, hm, h125]
  simp

theorem encodeConfig_data (config : Config) :
    (encodeConfig config).data =
      Char.ofNat 123 :: quoted "gitlab_url".data (Char.ofNat 58 :: quoted config.GitLabURL.data
        (Char.ofNat 44 :: quoted "group_id".data (Char.ofNat 58 :: quoted config.GroupID.data
          (Char.ofNat 44 :: quoted "access_token".data (Char.ofNat 58 ::
            quoted config.AccessToken.data [Char.ofNat 125]))))) := by
  have k1 : "gitlab_url".data.flatMap escapeChar = "gitlab_url".data := by decide
  have k2 : "group_id".data.flatMap escapeChar = "group_id".data := by decide
  have k3 : "access_token".data.flatMap escapeChar = "access_token".data := by decide
  simp only [encodeConfig, quote, quoted, k1, k2, k3]
  simp only [List.append_assoc, List.cons_append, List.nil_append]

theorem parse_encodeConfig (config : Config) :
    parse (encodeConfig config).data =
      some (Value.object [("gitlab_url".data, Value.string config.GitLabURL.data),
        ("group_id".data, Value.string config.GroupID.data),
        ("access_token".data, Value.string config.AccessToken.data)]) := by
  have h123 : (Char.ofNat 123).toNat = 123 := rfl
  have h34 : (Char.ofNat 34).toNat = 34 := rfl
  have hs : ∀ s r, skipWS (quoted s r) = quoted s r := fun s r => rfl
  have hb : ∀ r, skipWS (Char.ofNat 123 :: r) = Char.ofNat 123 :: r := fun r => rfl
  obtain ⟨k, hk⟩ : ∃ k, (encodeConfig config).data.length = k + 4 := by
    refine ⟨(encodeConfig config).data.length - 4, ?_⟩
    rw [encodeConfig_data]
    simp only [quoted, List.length_cons, List.length_append]
    omega
  unfold parse
  rw [hk, encodeConfig_data, hb]
  have hm : parseMembers (k + 4) 1 (quoted "gitlab_url".data (Char.ofNat 58 ::
      quoted config.GitLabURL.data (Char.ofNat 44 :: quoted "group_id".data (Char.ofNat 58 ::
        quoted config.GroupID.data (Char.ofNat 44 :: quoted "access_token".data
          (Char.ofNat 58 :: quoted config.AccessToken.data [Char.ofNat 125])))))) =
      some ([("gitlab_url".data, Value.string config.GitLabURL.data),
        ("group_id".data, Value.string config.GroupID.data),
        ("access_token".data, Value.string config.AccessToken.data)], []) := by
    rw [parseMembers_comma (k + 2), hs, parseMembers_comma (k + 1), hs, parseMembers_last k]
  have hq : ∀ s r, quoted s r = Char.ofNat 34 :: (s.flatMap escapeChar ++ Char.ofNat 34 :: r) :=
    fun s r => rfl
  have hd : (0 : Nat) < maxNestingDepth := by decide
  rw [hq "gitlab_url".data] at hm ⊢
  simp only [parseValue, h123, if_true, hd, hb]
  have hs2 : ∀ r, skipWS (Char.ofNat 34 :: r) = Char.ofNat 34 :: r := fun r => rfl
  simp only [hs2, h34]
  rw [show (0 : Nat) + 1 = 1 from rfl, hm]
  simp [skipWS]

theorem unmarshalConfig_encodeConfig (config : Config) :
    unmarshalConfig (encodeConfig config) ⟨"", "", ""⟩ = Except.ok config := by
  unfold unmarshalConfig
  rw [parse_encodeConfig]
  have f1 : findField "gitlab_url".data = some Field.GitLabURL := by decide
  have f2 : findField "group_id".data = some Field.GroupID := by decide
  have f3 : findField "access_token".data = some Field.AccessToken := by decide
  simp [storeMember, f1, f2, f3, setField]

end Go.JSON

/-! ## Marshalling on bytes and on text -/

namespace Go.Raw

theorem toNat_valid (c : Char) : c.toNat < 0xD800 ∨ (0xDFFF < c.toNat ∧ c.toNat < 0x110000) := by
  have h := c.valid
  simpa [UInt32.isValidChar, Nat.isValidChar, Char.toNat, UInt32.toNat] using h

theorem DecodeRune_two (s0 s1 : Nat) (rest : Bytes) (h0 : 0xC2 ≤ s0) (h0u : s0 < 0xE0)
    (h1 : 0x80 ≤ s1) (h1u : s1 ≤ 0xBF) :
    DecodeRune (s0 :: s1 :: rest) = (s0 % 32 * 64 + s1 % 64, 2) := by
  unfold DecodeRune
  have a1 : ¬(s0 < 0x80) := by omega
  have a2 : ¬(s0 < 0xC2 ∨ 0xF4 < s0) := by omega
  have a4 : ¬(s0 = 0xE0) := by omega
  have a5 : ¬(s0 = 0xF0) := by omega
  have a6 : ¬(s0 = 0xED) := by omega
  have a7 : ¬(s0 = 0xF4) := by omega
  have a8 : ¬(rest.length + 1 + 1 < 2) := by omega
  have a9 : ¬(s1 < 0x80 ∨ 0xBF < s1) := by omega
  simp only [if_neg a1, if_neg a2, if_pos h0u, if_neg a4, if_neg a5, if_neg a6, if_neg a7,
    List.length_cons, if_neg a8, if_neg a9, le_refl, if_true]

theorem DecodeRune_three (s0 s1 s2 : Nat) (rest : Bytes) (h0 : 0xE0 ≤ s0) (h0u : s0 < 0xF0)
    (h1 : 0x80 ≤ s1) (h1u : s1 ≤ 0xBF) (hlo : s0 = 0xE0 → 0xA0 ≤ s1)
    (hhi : s0 = 0xED → s1 ≤ 0x9F) (h2 : 0x80 ≤ s2) (h2u : s2 ≤ 0xBF) :
    DecodeRune (s0 :: s1 :: s2 :: rest) = (s0 % 16 * 4096 + s1 % 64 * 64 + s2 % 64, 3) := by
  unfold DecodeRune
  have a1 : ¬(s0 < 0x80) := by omega
  have a2 : ¬(s0 < 0xC2 ∨ 0xF4 < s0) := by omega
  have a3 : ¬(s0 < 0xE0) := by omega
  have a5 : ¬(s0 = 0xF0) := by omega
  have a7 : ¬(s0 = 0xF4) := by omega
  have a8 : ¬(rest.length + 1 + 1 + 1 < 3) := by omega
  have a10 : ¬(s2 < 0x80 ∨ 0xBF < s2) := by omega
  have a11 : ¬((3 : Nat) ≤ 2) := by omega
  simp only [if_neg a1, if_neg a2, if_neg a3, if_pos h0u, if_neg a5, if_neg a7,
    List.length_cons, if_neg a8, if_neg a10, if_neg a11, le_refl, if_true]
  have a9 : ¬(s1 < (if s0 = 0xE0 then 0xA0 else 0x80) ∨
      (if s0 = 0xED then 0x9F else 0xBF) < s1) := by
    split_ifs <;> omega
  simp only [if_neg a9]

theorem DecodeRune_four (s0 s1 s2 s3 : Nat) (rest : Bytes) (h0 : 0xF0 ≤ s0) (h0u : s0 ≤ 0xF4)
    (h1 : 0x80 ≤ s1) (h1u : s1 ≤ 0xBF) (hlo : s0 = 0xF0 → 0x90 ≤ s1)
    (hhi : s0 = 0xF4 → s1 ≤ 0x8F) (h2 : 0x80 ≤ s2) (h2u : s2 ≤ 0xBF)
    (h3 : 0x80 ≤ s3) (h3u : s3 ≤ 0xBF) :
    DecodeRune (s0 :: s1 :: s2 :: s3 :: rest) =
      (s0 % 8 * 262144 + s1 % 64 * 4096 + s2 % 64 * 64 + s3 % 64, 4) := by
  unfold DecodeRune
  have a1 : ¬(s0 < 0x80) := by omega
  have a2 : ¬(s0 < 0xC2 ∨ 0xF4 < s0) := by omega
  have a3 : ¬(s0 < 0xE0) := by omega
  have a4 : ¬(s0 < 0xF0) := by omega
  have a5 : ¬(s0 = 0xE0) := by omega
  have a6 : ¬(s0 = 0xED) := by omega
  have a8 : ¬(rest.length + 1 + 1 + 1 + 1 < 4) := by omega
  have a10 : ¬(s2 < 0x80 ∨ 0xBF < s2) := by omega
  have a12 : ¬(s3 < 0x80 ∨ 0xBF < s3) := by omega
  have a11 : ¬((4 : Nat) ≤ 2) := by omega
  have a13 : ¬((4 : Nat) ≤ 3) := by omega
  simp only [if_neg a1, if_neg a2, if_neg a3, if_neg a4, if_neg a5, if_neg a6,
    List.length_cons, if_neg a8, if_neg a10, if_neg a11, if_neg a12, if_neg a13]
  have a9 : ¬(s1 < (if s0 = 0xF0 then 0x90 else 0x80) ∨
      (if s0 = 0xF4 then 0x8F else 0xBF) < s1) := by
    split_ifs <;> omega
  simp only [if_neg a9]

theorem DecodeRune_EncodeRune (c : Char) (rest : Bytes) :
    DecodeRune (EncodeRune c.toNat ++ rest) = (c.toNat, (EncodeRune c.toNat).length) := by
  have hv := toNat_valid c
  unfold EncodeRune
  split_ifs with h1 h2 h3 h4
  · simp [DecodeRune, h1]
  · simp only [List.cons_append, List.nil_append, List.length_cons, List.length_nil]
    rw [DecodeRune_two _ _ _ (by omega) (by omega) (by omega) (by omega)]
    congr 1
    omega
  · omega
  · simp only [List.cons_append, List.nil_append, List.length_cons, List.length_nil]
    rw [DecodeRune_three _ _ _ _ (by omega) (by omega) (by omega) (by omega) (by omega)
      (by omega) (by omega) (by omega)]
    congr 1
    omega
  · simp only [List.cons_append, List.nil_append, List.length_cons, List.length_nil]
    rw [DecodeRune_four _ _ _ _ _ (by omega) (by omega) (by omega) (by omega) (by omega)
      (by omega) (by omega) (by omega) (by omega) (by omega)]
    congr 1
    omega

theorem EncodeRune_head (n : Nat) (h : 0x80 ≤ n) :
    ∃ b t, EncodeRune n = b :: t ∧ 0x80 ≤ b ∧ 2 ≤ (EncodeRune n).length := by
  unfold EncodeRune
  split_ifs
  · omega
  · exact ⟨_, _, rfl, by omega, by simp⟩
  · exact ⟨_, _, rfl, by omega, by simp⟩
  · exact ⟨_, _, rfl, by omega, by simp⟩
  · exact ⟨_, _, rfl, by omega, by simp⟩

theorem appendStringLoop_utf8 (s : List Char) (fuel : Nat) (h : s.length < fuel) :
    appendStringLoop fuel (s.flatMap (fun c => EncodeRune c.toNat)) =
      s.flatMap Go.JSON.escapeChar := by
  induction s generalizing fuel with
  | nil =>
    obtain ⟨f, rfl⟩ : ∃ f, fuel = f + 1 := ⟨fuel - 1, by omega⟩
    simp [appendStringLoop]
  | cons c s ih =>
    obtain ⟨f, rfl⟩ : ∃ f, fuel = f + 1 := ⟨fuel - 1, by omega⟩
    have hf : s.length < f := by simpa using h
    rw [List.flatMap_cons, List.flatMap_cons]
    by_cases hc : c.toNat < 0x80
    · have he : EncodeRune c.toNat = [c.toNat] := by simp [EncodeRune, hc]
      rw [he]
      simp only [List.cons_append, List.nil_append, appendStringLoop, if_pos hc,
        Char.ofNat_toNat]
      rw [show ([] : List Nat).append (s.flatMap fun c => EncodeRune c.toNat) =
        s.flatMap fun c => EncodeRune c.toNat from rfl, ih f hf]
    · obtain ⟨b, t, hbt, hb, hlen⟩ := EncodeRune_head c.toNat (by omega)
      have hd := DecodeRune_EncodeRune c (s.flatMap (fun c => EncodeRune c.toNat))
      rw [hbt] at hd ⊢
      rw [hbt] at hlen
      simp only [List.cons_append] at hd ⊢
      have hb2 : ¬b < 0x80 := by omega
      have hne : ¬((c.toNat = RuneError) ∧ (b :: t).length = 1) := by
        intro hh
        omega
      simp only [appendStringLoop, if_neg hb2, hd, if_neg hne, Char.ofNat_toNat]
      have hdrop : List.drop (b :: t).length
          (b :: (t ++ s.flatMap (fun c : Char => EncodeRune c.toNat))) =
          s.flatMap (fun c : Char => EncodeRune c.toNat) := by
        simp
      rw [hdrop, ih f hf]

theorem quote_utf8 (s : String) : quote (utf8 s) = Go.JSON.quote s := by
  unfold quote Go.JSON.quote utf8
  rw [appendStringLoop_utf8]
  have hl : ∀ l : List Char, l.length ≤ (l.flatMap (fun c => EncodeRune c.toNat)).length := by
    intro l
    induction l with
    | nil => simp
    | cons a l ih =>
      have hp : 0 < (EncodeRune a.toNat).length := by
        unfold EncodeRune
        split_ifs <;> simp
      simp only [List.flatMap_cons, List.length_append, List.length_cons]
      omega
  have := hl s.data
  omega

/-- On well-formed text the marshalling on bytes is the marshalling on text. -/
theorem encodeConfig_ofConfig (config : Config) :
    encodeConfig (ofConfig config) = Go.JSON.encodeConfig config := by
  simp only [encodeConfig, ofConfig, Go.JSON.encodeConfig, quote_utf8]

end Go.Raw

/-! ## First run: prompting and persisting the configuration -/

theorem mainWith_absent {P : Type} (fetch : Env P → Config → List Event) (E : Env P)
    (habsent : fileExists E (E.pathJoin E.home "config.json") = false)
    (hwrite : E.writeFile (E.pathJoin E.home "config.json")
      (Go.JSON.encodeConfig (collected E)) 420 = .ok ()) :
    mainWith fetch E =
      promptEvents ++ [Event.writeFile (E.pathJoin E.home "config.json")
        (Go.JSON.encodeConfig (collected E)) 420] ++
        fetch { E with stdin := E.stdin.drop 3 } (collected E) := by
  unfold mainWith
  simp only [habsent, Go.JSON.marshalConfig]
  simp only [collected, List.getD_eq_getElem?_getD] at hwrite
  simp [hwrite, promptEvents, collected]

theorem mainWith_incomplete {P : Type} (fetch : Env P → Config → List Event) (E : Env P)
    (data : String) (cfg0 : Config)
    (hexists : fileExists E (E.pathJoin E.home "config.json") = true)
    (hread : E.readFile (E.pathJoin E.home "config.json") = .ok data)
    (hdecode : Go.JSON.unmarshalConfig data ⟨"", "", ""⟩ = .ok cfg0)
    (hempty : cfg0.GitLabURL = "" ∨ cfg0.GroupID = "" ∨ cfg0.AccessToken = "")
    (hwrite : E.writeFile (E.pathJoin E.home "config.json")
      (Go.JSON.encodeConfig (collected E)) 420 = .ok ()) :
    mainWith fetch E =
      Event.readFile (E.pathJoin E.home "config.json") ::
        (promptEvents ++ [Event.writeFile (E.pathJoin E.home "config.json")
          (Go.JSON.encodeConfig (collected E)) 420] ++
          fetch { E with stdin := E.stdin.drop 3 } (collected E)) := by
  unfold mainWith
  simp only [hexists, hread, hdecode, Go.JSON.marshalConfig]
  simp only [collected, List.getD_eq_getElem?_getD] at hwrite
  simp [hwrite, promptEvents, collected]
  intro h1 h2 h3
  rcases hempty with h | h | h
  · exact absurd h h1
  · exact absurd h h2
  · exact absurd h h3

/-- C9 fails as stated.  The line read at the first prompt is the byte FF followed by a newline;
the collected value is the byte FF, which is also the value passed on in the current run.
`json.Marshal` writes it as the escape of U+FFFD, and decoding the written file yields the
character U+FFFD, whose bytes are EF BF BD: not the collected value. -/
theorem invalid_utf8_line_is_not_read_back :
    Go.Raw.collect [0xFF, 10] (Go.Raw.utf8 "42\n") (Go.Raw.utf8 "tok123\n") =
      ⟨[0xFF], Go.Raw.utf8 "42", Go.Raw.utf8 "tok123"⟩ ∧
    Go.Raw.encodeConfig
        (Go.Raw.collect [0xFF, 10] (Go.Raw.utf8 "42\n") (Go.Raw.utf8 "tok123\n")) =
      "\x7b\"gitlab_url\":\"\\ufffd\",\"group_id\":\"42\",\"access_token\":\"tok123\"\x7d" ∧
    Go.JSON.unmarshalConfig
        (Go.Raw.encodeConfig
          (Go.Raw.collect [0xFF, 10] (Go.Raw.utf8 "42\n") (Go.Raw.utf8 "tok123\n")))
        ⟨"", "", ""⟩ = .ok ⟨"\uFFFD", "42", "tok123"⟩ ∧
    Go.Raw.ofConfig ⟨"\uFFFD", "42", "tok123"⟩ =
      ⟨[0xEF, 0xBF, 0xBD], Go.Raw.utf8 "42", Go.Raw.utf8 "tok123"⟩ ∧
    Go.Raw.ofConfig ⟨"\uFFFD", "42", "tok123"⟩ ≠
      Go.Raw.collect [0xFF, 10] (Go.Raw.utf8 "42\n") (Go.Raw.utf8 "tok123\n") := by
  have henc : Go.Raw.encodeConfig
        (Go.Raw.collect [0xFF, 10] (Go.Raw.utf8 "42\n") (Go.Raw.utf8 "tok123\n")) =
      "\x7b\"gitlab_url\":\"\\ufffd\",\"group_id\":\"42\",\"access_token\":\"tok123\"\x7d" := by
    decide
  refine ⟨by decide, henc, ?_, by decide, by decide⟩
  rw [henc]
  rfl

/-- C9, amended: in both variants, whenever the configuration file is absent, or is read and
decodes with one of the three fields empty, `main` prompts for URL, group id and token in that
order, and (the write succeeding) writes a file and calls `fetchProjects` with the three
collected values, each the trimmed input line; provided the collected values are well-formed
UTF-8 text, decoding the written text yields exactly those three values, and a later run that
finds this file with three non-empty values uses them without prompting.  This holds of the
marshalling on bytes too, which on well-formed text is the marshalling on text.  The inputs
`https://gitlab.example.com/`, `42`, `tok123` write
`{"gitlab_url":"https://gitlab.example.com/","group_id":"42","access_token":"tok123"}`. -/
theorem config_round_trip :
    (∀ (E : Env GitlabCloner.Project),
      (fileExists E (E.pathJoin E.home "config.json") = false →
        E.writeFile (E.pathJoin E.home "config.json")
          (Go.JSON.encodeConfig (collected E)) 420 = .ok () →
        GitlabCloner.main E =
          promptEvents ++ [Event.writeFile (E.pathJoin E.home "config.json")
            (Go.JSON.encodeConfig (collected E)) 420] ++
            GitlabCloner.fetchProjects { E with stdin := E.stdin.drop 3 } (collected E)) ∧
      (∀ (data : String) (cfg0 : Config),
        fileExists E (E.pathJoin E.home "config.json") = true →
        E.readFile (E.pathJoin E.home "config.json") = .ok data →
        Go.JSON.unmarshalConfig data ⟨"", "", ""⟩ = .ok cfg0 →
        cfg0.GitLabURL = "" ∨ cfg0.GroupID = "" ∨ cfg0.AccessToken = "" →
        E.writeFile (E.pathJoin E.home "config.json")
          (Go.JSON.encodeConfig (collected E)) 420 = .ok () →
        GitlabCloner.main E =
          Event.readFile (E.pathJoin E.home "config.json") ::
            (promptEvents ++ [Event.writeFile (E.pathJoin E.home "config.json")
              (Go.JSON.encodeConfig (collected E)) 420] ++
              GitlabCloner.fetchProjects { E with stdin := E.stdin.drop 3 } (collected E)))) ∧
    (∀ (E : Env Subgroups.Project),
      (fileExists E (E.pathJoin E.home "config.json") = false →
        E.writeFile (E.pathJoin E.home "config.json")
          (Go.JSON.encodeConfig (collected E)) 420 = .ok () →
        Subgroups.main E =
          promptEvents ++ [Event.writeFile (E.pathJoin E.home "config.json")
            (Go.JSON.encodeConfig (collected E)) 420] ++
            Subgroups.fetchProjects { E with stdin := E.stdin.drop 3 } (collected E)) ∧
      (∀ (data : String) (cfg0 : Config),
        fileExists E (E.pathJoin E.home "config.json") = true →
        E.readFile (E.pathJoin E.home "config.json") = .ok data →
        Go.JSON.unmarshalConfig data ⟨"", "", ""⟩ = .ok cfg0 →
        cfg0.GitLabURL = "" ∨ cfg0.GroupID = "" ∨ cfg0.AccessToken = "" →
        E.writeFile (E.pathJoin E.home "config.json")
          (Go.JSON.encodeConfig (collected E)) 420 = .ok () →
        Subgroups.main E =
          Event.readFile (E.pathJoin E.home "config.json") ::
            (promptEvents ++ [Event.writeFile (E.pathJoin E.home "config.json")
              (Go.JSON.encodeConfig (collected E)) 420] ++
              Subgroups.fetchProjects { E with stdin := E.stdin.drop 3 } (collected E)))) ∧
    (∀ config : Config, Go.JSON.marshalConfig config = .ok (Go.JSON.encodeConfig config) ∧
      Go.JSON.unmarshalConfig (Go.JSON.encodeConfig config) ⟨"", "", ""⟩ = .ok config) ∧
    (∀ (E : Env GitlabCloner.Project) (config : Config),
      fileExists E (E.pathJoin E.home "config.json") = true →
      E.readFile (E.pathJoin E.home "config.json") = .ok (Go.JSON.encodeConfig config) →
      config.GitLabURL ≠ "" → config.GroupID ≠ "" → config.AccessToken ≠ "" →
      GitlabCloner.main E = Event.readFile (E.pathJoin E.home "config.json") ::
        GitlabCloner.fetchProjects E config) ∧
    (∀ (E : Env Subgroups.Project) (config : Config),
      fileExists E (E.pathJoin E.home "config.json") = true →
      E.readFile (E.pathJoin E.home "config.json") = .ok (Go.JSON.encodeConfig config) →
      config.GitLabURL ≠ "" → config.GroupID ≠ "" → config.AccessToken ≠ "" →
      Subgroups.main E = Event.readFile (E.pathJoin E.home "config.json") ::
        Subgroups.fetchProjects E config) ∧
    (∀ config : Config,
      Go.Raw.encodeConfig (Go.Raw.ofConfig config) = Go.JSON.encodeConfig config) ∧
    (∀ (gitlabURL groupID accessToken : Go.Raw.Bytes) (config : Config),
      Go.Raw.collect gitlabURL groupID accessToken = Go.Raw.ofConfig config →
      Go.JSON.unmarshalConfig
        (Go.Raw.encodeConfig (Go.Raw.collect gitlabURL groupID accessToken)) ⟨"", "", ""⟩ =
        .ok config) ∧
    Go.JSON.encodeConfig ⟨"https://gitlab.example.com/", "42", "tok123"⟩ =
      "\x7b\"gitlab_url\":\"https://gitlab.example.com/\",\"group_id\":\"42\"," ++
        "\"access_token\":\"tok123\"\x7d" := by
  refine ⟨fun E => ⟨?_, ?_⟩, fun E => ⟨?_, ?_⟩, ?_, ?_, ?_, Go.Raw.encodeConfig_ofConfig, ?_,
    by decide⟩
  · exact mainWith_absent GitlabCloner.fetchProjects E
  · exact mainWith_incomplete GitlabCloner.fetchProjects E
  · exact mainWith_absent Subgroups.fetchProjects E
  · exact mainWith_incomplete Subgroups.fetchProjects E
  · exact fun config => ⟨rfl, Go.JSON.unmarshalConfig_encodeConfig config⟩
  · intro E config hexists hread h1 h2 h3
    exact mainWith_configured GitlabCloner.fetchProjects E _ config hexists hread
      (Go.JSON.unmarshalConfig_encodeConfig config) h1 h2 h3
  · intro E config hexists hread h1 h2 h3
    exact mainWith_configured Subgroups.fetchProjects E _ config hexists hread
      (Go.JSON.unmarshalConfig_encodeConfig config) h1 h2 h3
  · intro gitlabURL groupID accessToken config hc
    rw [hc, Go.Raw.encodeConfig_ofConfig]
    exact Go.JSON.unmarshalConfig_encodeConfig config

/-- Witness of C9, amended: the end-to-end scenario (no configuration file, simple variant), a
file without token (subgroup variant), and the three input lines of the scenario as bytes. -/
theorem config_round_trip_witness :
    (GitlabCloner.main (GitlabCloner.sampleEnv [GitlabCloner.zeta]
        ["https://gitlab.example.com/\n", " 42\n", "tok123\n", "7\n"]) =
      [Event.stdout "Enter GitLab URL (e.g., https://gitlab.com): ", Event.readLine,
       Event.stdout "Enter the group ID: ", Event.readLine,
       Event.stdout "Enter the access token: ", Event.readLine,
       Event.writeFile "/home/dev/config.json"
         ("\x7b\"gitlab_url\":\"https://gitlab.example.com/\",\"group_id\":\"42\"," ++
           "\"access_token\":\"tok123\"\x7d") 420,
       Event.httpGet "https://gitlab.example.com/api/v4/groups/42/projects?private_token=tok123",
       Event.stdout "Available Projects:\n", Event.stdout "Zeta 1\n",
       Event.stdout "Enter the project ID to clone: ", Event.readLine,
       Event.fatal "Invalid project selected"]) ∧
    (Subgroups.main (Subgroups.incompleteEnv []
        ["https://gitlab.example.com/\n", "42\n", "tok123\n"]) =
      [Event.readFile "/home/dev/config.json",
       Event.stdout "Enter GitLab URL (e.g., https://gitlab.com): ", Event.readLine,
       Event.stdout "Enter the group ID: ", Event.readLine,
       Event.stdout "Enter the access token: ", Event.readLine,
       Event.writeFile "/home/dev/config.json"
         ("\x7b\"gitlab_url\":\"https://gitlab.example.com/\",\"group_id\":\"42\"," ++
           "\"access_token\":\"tok123\"\x7d") 420,
       Event.httpGet ("https://gitlab.example.com/api/v4/groups/42/projects" ++
         "?include_subgroups=true&private_token=tok123&per_page=100"),
       Event.stdout "Available Projects:\n",
       Event.stdout "Enter the project ID to clone: ", Event.readLine,
       Event.fatal "Invalid project selected"]) ∧
    (Go.Raw.collect (Go.Raw.utf8 "https://gitlab.example.com/\n") (Go.Raw.utf8 " 42\n")
        (Go.Raw.utf8 "tok123\n") =
      Go.Raw.ofConfig ⟨"https://gitlab.example.com/", "42", "tok123"⟩ ∧
     Go.JSON.unmarshalConfig
        (Go.Raw.encodeConfig
          (Go.Raw.collect (Go.Raw.utf8 "https://gitlab.example.com/\n") (Go.Raw.utf8 " 42\n")
            (Go.Raw.utf8 "tok123\n"))) ⟨"", "", ""⟩ =
      .ok ⟨"https://gitlab.example.com/", "42", "tok123"⟩) :=
  ⟨(config_round_trip.1 (GitlabCloner.sampleEnv [GitlabCloner.zeta]
      ["https://gitlab.example.com/\n", " 42\n", "tok123\n", "7\n"])).1 rfl rfl,
   (config_round_trip.2.1 (Subgroups.incompleteEnv []
      ["https://gitlab.example.com/\n", "42\n", "tok123\n"])).2 incompleteFile
      ⟨"https://gitlab.example.com/", "42", ""⟩ rfl rfl rfl (by decide) rfl,
   ⟨by decide,
    config_round_trip.2.2.2.2.2.2.1 (Go.Raw.utf8 "https://gitlab.example.com/\n")
      (Go.Raw.utf8 " 42\n") (Go.Raw.utf8 "tok123\n")
      ⟨"https://gitlab.example.com/", "42", "tok123"⟩ (by decide)⟩⟩

/-! ## Ties in the displayed order -/

set_option maxRecDepth 100000 in
/-- C4 fails as stated: `sort.Slice` is not a stable sort.  Of thirteen decoded projects, `Tie`
(2) comes before `tie` (3) in the response, and the listing shows `tie` (3) before `Tie` (2),
in both variants and with either generator. -/
theorem display_order_not_stable :
    (Go.Sort.Slice Go.Sort.xorshiftNext
        (GitlabCloner.less (GitlabCloner.pdqEnv GitlabCloner.thirteen []))
        GitlabCloner.thirteen).map (List.map (fun p => p.ID)) =
      some [12, 13, 4, 5, 6, 1, 7, 8, 9, 10, 11, 3, 2] ∧
    (Go.Sort.Slice Go.Sort.xorshiftNextOld
        (GitlabCloner.less (GitlabCloner.pdqEnv GitlabCloner.thirteen []))
        GitlabCloner.thirteen).map (List.map (fun p => p.ID)) =
      some [12, 13, 4, 5, 6, 1, 7, 8, 9, 10, 11, 3, 2] ∧
    (GitlabCloner.thirteen.filter (fun p => Go.ToLower id p.Name = "tie")).map (fun p => p.ID) =
      [2, 3] ∧
    (((GitlabCloner.pdqEnv GitlabCloner.thirteen []).sortSlice
        (GitlabCloner.less (GitlabCloner.pdqEnv GitlabCloner.thirteen []))
        GitlabCloner.thirteen).filter (fun p => Go.ToLower id p.Name = "tie")).map
        (fun p => p.ID) = [3, 2] ∧
    GitlabCloner.fetchProjects (GitlabCloner.pdqEnv GitlabCloner.thirteen ["2\n"])
        GitlabCloner.sampleConfig =
      [Event.httpGet "https://gitlab.example.com/api/v4/groups/42/projects?private_token=tok123",
       Event.stdout "Available Projects:\n", Event.stdout "a 12\n", Event.stdout "b 13\n",
       Event.stdout "c 4\n", Event.stdout "d 5\n", Event.stdout "e 6\n", Event.stdout "g 1\n",
       Event.stdout "m 7\n", Event.stdout "p 8\n", Event.stdout "q 9\n", Event.stdout "r 10\n",
       Event.stdout "s 11\n", Event.stdout "tie 3\n", Event.stdout "Tie 2\n",
       Event.stdout "Enter the project ID to clone: ", Event.readLine,
       Event.stdout "Cloning project...\n", Event.stdout "Cloning Tie\n",
       Event.run "git" ["clone", ""], Event.stdout "Project cloned successfully.\n"] ∧
    (((Subgroups.pdqEnv Subgroups.thirteen []).sortSlice
        (Subgroups.less (Subgroups.pdqEnv Subgroups.thirteen []))
        Subgroups.thirteen).filter (fun p => Go.ToLower id p.Name = "tie")).map
        (fun p => p.ID) = [3, 2] ∧
    (Subgroups.thirteen.filter (fun p => Go.ToLower id p.Name = "tie")).map (fun p => p.ID) =
      [2, 3] := by
  refine ⟨?_, ?_, ?_, ?_, ?_, ?_, ?_⟩ <;> decide

/-- What `sort.Slice` guarantees does not exclude that two equal elements change places. -/
theorem sortSliceSpec_allows_reversed_ties :
    SortSliceSpec (reversingSortSlice : (Nat × Nat → Nat × Nat → Bool) → _) ∧
    reversingSortSlice (fun a b : Nat × Nat => decide (a.1 < b.1)) [(0, 1), (0, 2)] =
      [(0, 2), (0, 1)] := by
  refine ⟨⟨?_, ?_⟩, by decide⟩
  · intro less xs
    exact (insertionSortSlice_spec.perm less xs.reverse).trans (List.reverse_perm xs)
  · intro less xs h
    exact insertionSortSlice_spec.sorted less xs.reverse h

/-- C4, amended: the sort applied before display is `sort.Slice`, which is not stable.  In both
variants, for every decoded project list the displayed list is a rearrangement of it, and for
every lower-cased name the projects with that name are all displayed, each as often as decoded,
in a relative order that need not be the decoded one. -/
theorem ties_are_rearranged :
    (∀ (E : Env GitlabCloner.Project) (config : Config) (decoded : List GitlabCloner.Project),
      SortSliceSpec E.sortSlice → GitlabCloner.Responds E config decoded →
      (E.sortSlice (GitlabCloner.less E) decoded).Perm decoded ∧
      (∀ key : String,
        ((E.sortSlice (GitlabCloner.less E) decoded).filter
          (fun p => decide (Go.ToLower E.unicodeToLower p.Name = key))).Perm
        (decoded.filter (fun p => decide (Go.ToLower E.unicodeToLower p.Name = key)))) ∧
      ∃ rest, GitlabCloner.fetchProjects E config =
        Event.httpGet (GitlabCloner.fullURL config) :: Event.stdout "Available Projects:\n" ::
          ((E.sortSlice (GitlabCloner.less E) decoded).map GitlabCloner.listLine ++ rest)) ∧
    (∀ (E : Env Subgroups.Project) (config : Config) (decoded : List Subgroups.Project),
      SortSliceSpec E.sortSlice → Subgroups.Responds E config decoded →
      (E.sortSlice (Subgroups.less E) decoded).Perm decoded ∧
      (∀ key : String,
        ((E.sortSlice (Subgroups.less E) decoded).filter
          (fun p => decide (Go.ToLower E.unicodeToLower p.Name = key))).Perm
        (decoded.filter (fun p => decide (Go.ToLower E.unicodeToLower p.Name = key)))) ∧
      ∃ rest, Subgroups.fetchProjects E config =
        Event.httpGet (Subgroups.fullURL config) :: Event.stdout "Available Projects:\n" ::
          ((E.sortSlice (Subgroups.less E) decoded).map (Subgroups.listLine E) ++ rest)) := by
  constructor
  · intro E config decoded hs hr
    refine ⟨hs.perm _ _, fun key => (hs.perm _ _).filter _, ?_⟩
    rw [GitlabCloner.fetchProjects_eq E config decoded hr,
      GitlabCloner.listAndClone_eq E decoded _ rfl]
    exact ⟨_, rfl⟩
  · intro E config decoded hs hr
    refine ⟨hs.perm _ _, fun key => (hs.perm _ _).filter _, ?_⟩
    rw [Subgroups.fetchProjects_eq_sg E config decoded hr,
      Subgroups.listAndClone_eq_sg E decoded _ rfl]
    exact ⟨_, rfl⟩

/-- Witness of the amended C4: ALPHA (5), Zeta (1), alpha (2) are all displayed. -/
theorem ties_are_rearranged_witness :
    (((GitlabCloner.sampleEnv [GitlabCloner.alphaUpper, GitlabCloner.zeta, GitlabCloner.alpha]
          []).sortSlice
        (GitlabCloner.less
          (GitlabCloner.sampleEnv [GitlabCloner.alphaUpper, GitlabCloner.zeta, GitlabCloner.alpha]
            []))
        [GitlabCloner.alphaUpper, GitlabCloner.zeta, GitlabCloner.alpha]).filter
        (fun p => decide (Go.ToLower id p.Name = "alpha"))).Perm
      ([GitlabCloner.alphaUpper, GitlabCloner.zeta, GitlabCloner.alpha].filter
        (fun p => decide (Go.ToLower id p.Name = "alpha"))) ∧
    (((Subgroups.sampleEnv [Subgroups.alphaUpper, Subgroups.zeta, Subgroups.alpha]
          []).sortSlice
        (Subgroups.less
          (Subgroups.sampleEnv [Subgroups.alphaUpper, Subgroups.zeta, Subgroups.alpha] []))
        [Subgroups.alphaUpper, Subgroups.zeta, Subgroups.alpha]).filter
        (fun p => decide (Go.ToLower id p.Name = "alpha"))).Perm
      ([Subgroups.alphaUpper, Subgroups.zeta, Subgroups.alpha].filter
        (fun p => decide (Go.ToLower id p.Name = "alpha"))) :=
  ⟨(ties_are_rearranged.1
      (GitlabCloner.sampleEnv [GitlabCloner.alphaUpper, GitlabCloner.zeta, GitlabCloner.alpha] [])
      GitlabCloner.sampleConfig
      [GitlabCloner.alphaUpper, GitlabCloner.zeta, GitlabCloner.alpha]
      insertionSortSlice_spec ⟨"[]", rfl, rfl⟩).2.1 "alpha",
   (ties_are_rearranged.2
      (Subgroups.sampleEnv [Subgroups.alphaUpper, Subgroups.zeta, Subgroups.alpha] [])
      Subgroups.sampleConfig
      [Subgroups.alphaUpper, Subgroups.zeta, Subgroups.alpha]
      insertionSortSlice_spec ⟨"[]", rfl, rfl⟩).2.1 "alpha"⟩
